import Mathlib

/-!
# AI orchestrator with containers: classification and dispatch pipeline

A shallow embedding of `src/index.js` and `src/docker.js`, and the properties
of the specification checked against it.

## How the program is modelled

* JavaScript values are the inductive type `JsValue`; a thrown `Error` object
  is a `JsError`.  Strings are sequences of code points.
* Every function of the program is a computation in `M σ`: it threads the
  program state `St σ` (the state `σ` of the outside world, the module variable
  `userInputMain`, and the trace of events) and ends either with a returned
  value or with a thrown `JsError`.  A thrown error keeps the state reached so
  far, as in JavaScript; `tryCatch` is the `try`/`catch` statement.  An
  `await` is the sequencing of the monad: the program has one thread of
  control and awaits each promise where it creates it.
* The trace records what can be observed: commands handed to `execSync`,
  console output, the completion request, `rl.close()`, and, as bookkeeping,
  the entry into each function of the program.
* What the program uses and does not define is a field of `Platform σ`:
  `child_process.execSync`, `groq.chat.completions.create`, `process.env` and
  `Number::toString`.  Theorems hold for every platform.  `JSON.parse`,
  `String.prototype.trim`, `ToString`, `ToBoolean` and property reads are
  written out after ECMAScript.
* `exampleWorld` is a small concrete platform on which the theorems are
  instantiated and the program is run on concrete inputs.
-/

namespace Orchestrator

/-! ## Values -/

/-- A number as `JSON.parse` reads it: the decimal `(-1)^neg * mant * 10^exp`
that the literal denotes.  The program never computes with numbers; it tests
them for truthiness and passes them on. -/
structure JsNumber where
  neg : Bool
  mant : Nat
  exp : Int
deriving DecidableEq, Repr

/-- The number converts to the double `+0` or `-0`: it is zero, or it is so
small that rounding to nearest (ties to even) gives zero, that is, its
magnitude is at most `2^(-1075)`. -/
def JsNumber.isZero (n : JsNumber) : Bool :=
  n.mant == 0 || (decide (n.exp < 0) && decide (n.mant * 2 ^ 1075 ≤ 10 ^ (-n.exp).toNat))

/-- JavaScript values that can occur in the program: `undefined` and what
`JSON.parse` can build.  An object is the list of its own properties in
insertion order, each key once. -/
inductive JsValue where
  | undefined
  | null
  | bool (b : Bool)
  | num (n : JsNumber)
  | str (s : String)
  | arr (items : List JsValue)
  | obj (fields : List (String × JsValue))
deriving Repr

/-- A thrown `Error` object: its constructor name and its message. -/
structure JsError where
  name : String
  message : String
deriving DecidableEq, Repr

/-- The `TypeError` of reading a property of `undefined` or `null`. -/
def typeError (what : String) : JsError :=
  ⟨"TypeError", what⟩

/-- The `SyntaxError` of `JSON.parse`.  The message text is engine
specific and is not modelled further. -/
def syntaxError : JsError :=
  ⟨"SyntaxError", "Unexpected token in JSON"⟩

/-- `ToBoolean`. -/
def truthy : JsValue → Bool
  | .undefined => false
  | .null => false
  | .bool b => b
  | .num n => !n.isZero
  | .str s => !(s.data.isEmpty)
  | .arr _ => true
  | .obj _ => true

/-- Own property lookup in an object's property list. -/
def lookupField (k : String) : List (String × JsValue) → Option JsValue
  | [] => none
  | (k', v) :: rest => if k' = k then some v else lookupField k rest

/-- Property read `v.k` for the keys this program reads (`task`, `filename`,
`sentiment_score`): none of them is defined on a built-in prototype, so the
read gives the own property of an object and `undefined` on every other value,
and throws a `TypeError` on `undefined` and `null`. -/
def getProp (v : JsValue) (k : String) : Except JsError JsValue :=
  match v with
  | .undefined => .error (typeError ("Cannot read properties of undefined (reading " ++ k ++ ")"))
  | .null => .error (typeError ("Cannot read properties of null (reading " ++ k ++ ")"))
  | .obj fields => .ok ((lookupField k fields).getD .undefined)
  | _ => .ok .undefined

/-! ## `String.prototype.trim` -/

/-- The code points `trim` removes: ECMAScript `WhiteSpace` and
`LineTerminator`. -/
def isJsWhiteSpace (c : Char) : Bool :=
  let n := c.toNat
  n == 0x09 || n == 0x0A || n == 0x0B || n == 0x0C || n == 0x0D || n == 0x20 ||
  n == 0xA0 || n == 0x1680 || (decide (0x2000 ≤ n) && decide (n ≤ 0x200A)) ||
  n == 0x2028 || n == 0x2029 || n == 0x202F || n == 0x205F || n == 0x3000 || n == 0xFEFF

/-- `s.trim()`. -/
def jsTrim (s : String) : String :=
  ⟨((s.data.dropWhile isJsWhiteSpace).reverse.dropWhile isJsWhiteSpace).reverse⟩

/-! ## `JSON.parse` -/

/-- JSON insignificant whitespace: space, tab, line feed, carriage return. -/
def isJsonWs (c : Char) : Bool :=
  c == ' ' || c == '\t' || c == '\n' || c == '\r'

/-- Drop leading JSON whitespace. -/
def skipWs (cs : List Char) : List Char :=
  cs.dropWhile isJsonWs

/-- Value of a hexadecimal digit. -/
def hexVal (c : Char) : Option Nat :=
  let n := c.toNat
  if 48 ≤ n ∧ n ≤ 57 then some (n - 48)
  else if 97 ≤ n ∧ n ≤ 102 then some (n - 87)
  else if 65 ≤ n ∧ n ≤ 70 then some (n - 55)
  else none

/-- The four hexadecimal digits after a `\u`. -/
def hex4 : List Char → Option (Nat × List Char)
  | a :: b :: c :: d :: rest =>
    match hexVal a, hexVal b, hexVal c, hexVal d with
    | some x, some y, some z, some w => some (((x * 16 + y) * 16 + z) * 16 + w, rest)
    | _, _, _, _ => none
  | _ => none

/-- The character of a UTF-16 code unit given by a `\u` escape.  A code unit
that is half of a surrogate pair on its own has no `Char`; it is read as
U+FFFD, which is also what it becomes once the string is encoded for a
command line. -/
def unitChar (n : Nat) : Char :=
  if 0xD800 ≤ n ∧ n ≤ 0xDFFF then Char.ofNat 0xFFFD else Char.ofNat n

/-- The body of a string literal, after the opening quote: the decoded text
and the input after the closing quote.  The first argument bounds the number
of steps; more steps than characters are always enough
(`parseStringBody_fuel`). -/
def parseStringBody : Nat → List Char → List Char → Option (String × List Char)
  | 0, _, _ => none
  | _ + 1, [], _ => none
  | _ + 1, '"' :: rest, acc => some (⟨acc.reverse⟩, rest)
  | fuel + 1, '\\' :: 'u' :: rest, acc =>
    match hex4 rest with
    | none => none
    | some (hi, rest1) =>
      if 0xD800 ≤ hi ∧ hi ≤ 0xDBFF then
        match rest1 with
        | '\\' :: 'u' :: rest2 =>
          match hex4 rest2 with
          | none => none
          | some (lo, rest3) =>
            if 0xDC00 ≤ lo ∧ lo ≤ 0xDFFF then
              parseStringBody fuel rest3
                (Char.ofNat (0x10000 + (hi - 0xD800) * 0x400 + (lo - 0xDC00)) :: acc)
            else
              parseStringBody fuel rest1 (unitChar hi :: acc)
        | _ => parseStringBody fuel rest1 (unitChar hi :: acc)
      else parseStringBody fuel rest1 (unitChar hi :: acc)
  | fuel + 1, '\\' :: c :: rest, acc =>
    if c == '"' then parseStringBody fuel rest ('"' :: acc)
    else if c == '\\' then parseStringBody fuel rest ('\\' :: acc)
    else if c == '/' then parseStringBody fuel rest ('/' :: acc)
    else if c == 'b' then parseStringBody fuel rest (Char.ofNat 8 :: acc)
    else if c == 'f' then parseStringBody fuel rest (Char.ofNat 12 :: acc)
    else if c == 'n' then parseStringBody fuel rest ('\n' :: acc)
    else if c == 'r' then parseStringBody fuel rest ('\r' :: acc)
    else if c == 't' then parseStringBody fuel rest ('\t' :: acc)
    else none
  | _ + 1, '\\' :: [], _ => none
  | fuel + 1, c :: rest, acc =>
    if c.toNat < 0x20 then none else parseStringBody fuel rest (c :: acc)

/-- Leading decimal digits: their value continued from `acc`, how many there
are, and the rest of the input. -/
def takeDigits : List Char → Nat → Nat → Nat × Nat × List Char
  | [], acc, k => (acc, k, [])
  | c :: rest, acc, k =>
    if c.isDigit then takeDigits rest (acc * 10 + (c.toNat - 48)) (k + 1)
    else (acc, k, c :: rest)

/-- The optional exponent part of a number literal. -/
def parseExponent (cs : List Char) : Option (Int × List Char) :=
  match cs with
  | e :: rest =>
    if e == 'e' || e == 'E' then
      match rest with
      | '+' :: rest1 =>
        match takeDigits rest1 0 0 with
        | (_, 0, _) => none
        | (v, _, rest2) => some ((v : Int), rest2)
      | '-' :: rest1 =>
        match takeDigits rest1 0 0 with
        | (_, 0, _) => none
        | (v, _, rest2) => some (-(v : Int), rest2)
      | _ =>
        match takeDigits rest 0 0 with
        | (_, 0, _) => none
        | (v, _, rest2) => some ((v : Int), rest2)
    else some (0, cs)
  | [] => some (0, [])

/-- The optional fraction part after the integer part `ip`: the digits of the
mantissa so far and the number of fraction digits. -/
def parseFraction (ip : Nat) (cs : List Char) : Option (Nat × Nat × List Char) :=
  match cs with
  | '.' :: rest =>
    match takeDigits rest ip 0 with
    | (_, 0, _) => none
    | (m, k, rest1) => some (m, k, rest1)
  | _ => some (ip, 0, cs)

/-- The integer part of a number literal that starts with the digit `c`: a
lone `0`, or all the leading digits. -/
def parseIntPart (c : Char) (rest : List Char) : Nat × List Char :=
  if c == '0' then (0, rest)
  else
    match takeDigits (c :: rest) 0 0 with
    | (v, _, r) => (v, r)

/-- A number literal without its sign: `0` or a digit sequence that does not
start with `0`, then an optional fraction and an optional exponent. -/
def parseUnsigned (neg : Bool) (cs : List Char) : Option (JsNumber × List Char) :=
  match cs with
  | [] => none
  | c :: rest =>
    if !c.isDigit then none
    else
      match parseFraction (parseIntPart c rest).1 (parseIntPart c rest).2 with
      | none => none
      | some (m, k, rest1) =>
        match parseExponent rest1 with
        | none => none
        | some (e, rest2) => some (⟨neg, m, e - (k : Int)⟩, rest2)

/-- A number literal. -/
def parseNumber (cs : List Char) : Option (JsNumber × List Char) :=
  match cs with
  | '-' :: rest => parseUnsigned true rest
  | _ => parseUnsigned false cs

/-- Define own property `k` of an object under construction: a key that is
already there keeps its place and takes the new value. -/
def setField (k : String) (v : JsValue) : List (String × JsValue) → List (String × JsValue)
  | [] => [(k, v)]
  | (k', v') :: rest => if k' = k then (k', v) :: rest else (k', v') :: setField k v rest

/-- The elements of an array after the first, up to the closing bracket;
`pv` reads one value.  The first numeric argument bounds the number of
elements; more than the characters left is enough (`parseElements_fuel`). -/
def parseElements (pv : List Char → Option (JsValue × List Char)) :
    Nat → List JsValue → List Char → Option (JsValue × List Char)
  | 0, _, _ => none
  | fuel + 1, acc, cs =>
    match skipWs cs with
    | ']' :: rest => some (.arr acc.reverse, rest)
    | ',' :: rest =>
      match pv rest with
      | none => none
      | some (v, rest1) => parseElements pv fuel (v :: acc) rest1
    | _ => none

/-- One member `"key": value` of an object. -/
def parseMember (pv : List Char → Option (JsValue × List Char)) (cs : List Char) :
    Option ((String × JsValue) × List Char) :=
  match skipWs cs with
  | '"' :: rest =>
    match parseStringBody (rest.length + 1) rest [] with
    | none => none
    | some (k, rest1) =>
      match skipWs rest1 with
      | ':' :: rest2 =>
        match pv rest2 with
        | none => none
        | some (v, rest3) => some ((k, v), rest3)
      | _ => none
  | _ => none

/-- The members of an object after the first, up to the closing brace.  The
first numeric argument bounds the number of members; more than the characters
left is enough (`parseMembers_fuel`). -/
def parseMembers (pv : List Char → Option (JsValue × List Char)) :
    Nat → List (String × JsValue) → List Char → Option (JsValue × List Char)
  | 0, _, _ => none
  | fuel + 1, acc, cs =>
    match skipWs cs with
    | '}' :: rest => some (.obj acc, rest)
    | ',' :: rest =>
      match parseMember pv rest with
      | none => none
      | some ((k, v), rest1) => parseMembers pv fuel (setField k v acc) rest1
    | _ => none

/-- One JSON value, with the whitespace before it.  The first argument bounds
the nesting depth. -/
def parseValue : Nat → List Char → Option (JsValue × List Char)
  | 0, _ => none
  | fuel + 1, cs =>
    match skipWs cs with
    | 'n' :: 'u' :: 'l' :: 'l' :: rest => some (.null, rest)
    | 't' :: 'r' :: 'u' :: 'e' :: rest => some (.bool true, rest)
    | 'f' :: 'a' :: 'l' :: 's' :: 'e' :: rest => some (.bool false, rest)
    | '"' :: rest =>
      match parseStringBody (rest.length + 1) rest [] with
      | none => none
      | some (s, rest1) => some (.str s, rest1)
    | '[' :: rest =>
      match skipWs rest with
      | ']' :: rest1 => some (.arr [], rest1)
      | _ =>
        match parseValue fuel rest with
        | none => none
        | some (v, rest1) => parseElements (parseValue fuel) (rest1.length + 1) [v] rest1
    | '{' :: rest =>
      match skipWs rest with
      | '}' :: rest1 => some (.obj [], rest1)
      | _ =>
        match parseMember (parseValue fuel) rest with
        | none => none
        | some ((k, v), rest1) => parseMembers (parseValue fuel) (rest1.length + 1) [(k, v)] rest1
    | other =>
      match parseNumber other with
      | none => none
      | some (n, rest) => some (.num n, rest)

/-- `JSON.parse(text)` for a string `text`: the value of the whole text, or a
`SyntaxError`.  A value nested `d` deep takes at least `d` characters, so
the length of the text bounds the depth (`parseValue_fuel`,
`JSON.parse_fuel`). -/
def JSON.parse (text : String) : Except JsError JsValue :=
  match parseValue (text.data.length + 1) text.data with
  | none => .error syntaxError
  | some (v, rest) =>
    match skipWs rest with
    | [] => .ok v
    | _ => .error syntaxError

/-! ## `ToString` -/

mutual
/-- `ToString(v)`, as a template literal applies it.  An array is joined with
commas.  An object built by `JSON.parse` has no callable method of its own:
when it has an own `toString` property the inherited method is hidden and the
conversion throws a `TypeError`; otherwise `Object.prototype.toString`
answers.  `numStr` is `Number::toString`. -/
def toStringJs (numStr : JsNumber → String) : JsValue → Except JsError String
  | .undefined => .ok "undefined"
  | .null => .ok "null"
  | .bool true => .ok "true"
  | .bool false => .ok "false"
  | .num n => .ok (numStr n)
  | .str s => .ok s
  | .arr items => joinItems numStr items
  | .obj fields =>
    match lookupField "toString" fields with
    | some _ => .error (typeError "Cannot convert object to primitive value")
    | none => .ok "[object Object]"
termination_by structural v => v
/-- `Array.prototype.join` with the separator `","`: `undefined` and `null`
elements give the empty string. -/
def joinItems (numStr : JsNumber → String) : List JsValue → Except JsError String
  | [] => .ok ""
  | v :: rest =>
    let first : Except JsError String :=
      match v with
      | .undefined => .ok ""
      | .null => .ok ""
      | .bool b => toStringJs numStr (.bool b)
      | .num n => toStringJs numStr (.num n)
      | .str s => toStringJs numStr (.str s)
      | .arr items => joinItems numStr items
      | .obj fields => toStringJs numStr (.obj fields)
    match first with
    | .error e => .error e
    | .ok s =>
      match rest with
      | [] => .ok s
      | _ :: _ =>
        match joinItems numStr rest with
        | .error e => .error e
        | .ok t => .ok (s ++ "," ++ t)
termination_by structural items => items
end

/-! ## The outside world -/

/-- The `content` of a completion message: a string, `null`, or missing. -/
inductive Content where
  | undefined
  | null
  | text (s : String)
deriving DecidableEq, Repr

/-- What the program reads of a completion message. -/
structure ChatMessage where
  content : Content
deriving DecidableEq, Repr

/-- What the program reads of a completion choice; `none` is a missing (or
`null`) `message`. -/
structure Choice where
  message : Option ChatMessage
deriving DecidableEq, Repr

/-- What the program reads of the endpoint's reply; `none` is a missing (or
`null`) `choices`. -/
structure ChatCompletion where
  choices : Option (List Choice)
deriving DecidableEq, Repr

/-- The request `getGroqChatCompletion` sends. -/
structure ChatRequest where
  system : String
  user : String
  model : String
  responseFormat : String
  temperature : JsNumber
deriving DecidableEq, Repr

/-- What the program uses and does not define: `execSync` of
`child_process` (the captured standard output, or the thrown error of a
command that exits nonzero or cannot start), `groq.chat.completions.create`
(the reply, or the rejection), `Number::toString`, and `process.env`.  `σ` is
the state of everything outside the process. -/
structure Platform (σ : Type) where
  execSync : String → σ → Except JsError String × σ
  chatCreate : ChatRequest → σ → Except JsError ChatCompletion × σ
  numberToString : JsNumber → String
  env : String → Option String

/-- An argument of `console.log` or `console.error`. -/
inductive LogArg where
  | val (v : JsValue)
  | err (e : JsError)
deriving Repr

/-- What a run can be observed to do.  `call` marks the entry into a function
of the program with its arguments; it is bookkeeping and changes nothing. -/
inductive Event where
  | call (fn : String) (args : List JsValue)
  | log (args : List LogArg)
  | error (args : List LogArg)
  | exec (cmd : String)
  | request (req : ChatRequest)
  | close
deriving Repr

/-- Program state: the outside world, the module variable `userInputMain`,
and the events so far, oldest first. -/
structure St (σ : Type) where
  world : σ
  userInputMain : JsValue
  trace : List Event

/-- Computations of the program: from a state to a returned value or a thrown
error, and the state reached. -/
def M (σ : Type) (α : Type) : Type :=
  St σ → Except JsError α × St σ

/-- Return a value. -/
def M.pure {σ α : Type} (a : α) : M σ α :=
  fun s => (.ok a, s)

/-- Sequencing: a thrown error skips the rest. -/
def M.bind {σ α β : Type} (m : M σ α) (f : α → M σ β) : M σ β :=
  fun s =>
    match m s with
    | (.ok a, s1) => f a s1
    | (.error e, s1) => (.error e, s1)

instance {σ : Type} : Monad (M σ) where
  pure := M.pure
  bind := M.bind

/-- Lift `throw`. -/
def throwJs {σ α : Type} (e : JsError) : M σ α :=
  fun s => (.error e, s)

/-- A pure step that may throw. -/
def liftE {σ α : Type} (r : Except JsError α) : M σ α :=
  fun s => (r, s)

/-- The statement `try body catch (error) handler`. -/
def tryCatch {σ α : Type} (body : M σ α) (handler : JsError → M σ α) : M σ α :=
  fun s =>
    match body s with
    | (.ok a, s1) => (.ok a, s1)
    | (.error e, s1) => handler e s1

/-- Record an event. -/
def emit {σ : Type} (e : Event) : M σ Unit :=
  fun s => (.ok (), { s with trace := s.trace ++ [e] })

/-- Entry into the program's function `fn`. -/
def enter {σ : Type} (fn : String) (args : List JsValue) : M σ Unit :=
  emit (.call fn args)

/-- `console.log(...)`. -/
def consoleLog {σ : Type} (args : List LogArg) : M σ Unit :=
  emit (.log args)

/-- `console.error(...)`. -/
def consoleError {σ : Type} (args : List LogArg) : M σ Unit :=
  emit (.error args)

/-- `execSync(cmd)`: the command is issued, the world answers. -/
def execSync {σ : Type} (P : Platform σ) (cmd : String) : M σ String :=
  fun s =>
    match P.execSync cmd s.world with
    | (r, w) => (r, { s with world := w, trace := s.trace ++ [.exec cmd] })

/-- The awaited call `groq.chat.completions.create(req)`. -/
def chatCreate {σ : Type} (P : Platform σ) (req : ChatRequest) : M σ ChatCompletion :=
  fun s =>
    match P.chatCreate req s.world with
    | (r, w) => (r, { s with world := w, trace := s.trace ++ [.request req] })

/-- A string argument of a log call. -/
def txt (s : String) : LogArg :=
  .val (.str s)

/-- A template substitution of a value. -/
def subst {σ : Type} (P : Platform σ) (v : JsValue) : M σ String :=
  liftE (toStringJs P.numberToString v)

/-- A template substitution of `process.env.NAME`. -/
def envText {σ : Type} (P : Platform σ) (name : String) : String :=
  (P.env name).getD "undefined"

/-! ## `src/docker.js` -/

def sentimentImage : String := "sentiment_analysis_container"

def sentimentContainer : String := "sentiment-container"

def dataCleaningImage : String := "data_cleaning_container"

def dataCleaningContainer : String := "data-cleaning-container"

/-- The command of `imageExists`. -/
def imagesCommand (image : String) : String :=
  "docker images -q " ++ image

/-- The command of `buildDockerImage`. -/
def buildCommand (imageName path : String) : String :=
  "docker build -t " ++ imageName ++ " " ++ path

/-- The command of `runSentimentAnalysis`, the user text substituted. -/
def sentimentRunCommand (text : String) : String :=
  "docker run --rm -e TEXT=\"" ++ text ++ "\" " ++ sentimentImage

/-- The command of `runDataCleaning`: the template literal with its line
continuations removed and its substitutions made. -/
def cleaningRunCommand (keyId secret filename : String) : String :=
  "docker run --rm " ++
  "        -e AWS_ACCESS_KEY_ID=" ++ keyId ++ " " ++
  "        -e AWS_SECRET_ACCESS_KEY=" ++ secret ++ " " ++
  "        -e INPUT_FILENAME=" ++ filename ++ " " ++
  "        -v $(pwd)/data:/app/data " ++
  "        " ++ dataCleaningImage

/-- Function `imageExists(image)`.  The length test is on the trimmed
output; a string has positive length exactly when it has a character. -/
def imageExists {σ : Type} (P : Platform σ) (image : String) : M σ Bool := do
  enter "imageExists" [.str image]
  tryCatch
    (do
      let result ← execSync P (imagesCommand image)
      pure (decide ((jsTrim result).length > 0)))
    (fun error => do
      consoleError [txt ("❌ Error checking image " ++ image ++ ":"), txt error.message]
      pure false)

/-- Function `buildDockerImage(imageName, path)`. -/
def buildDockerImage {σ : Type} (P : Platform σ) (imageName path : String) : M σ Unit := do
  enter "buildDockerImage" [.str imageName, .str path]
  if !(← imageExists P imageName) then
    consoleLog [txt ("🚀 Building the Docker image for " ++ imageName ++ "...")]
    let _ ← execSync P (buildCommand imageName path)
    consoleLog [txt ("✅ Build completed for " ++ imageName ++ ".")]
  else
    consoleLog [txt ("✅ Docker image " ++ imageName ++ " already exists. Skipping build.")]

/-- The record `runSentimentAnalysis` returns. -/
def sentimentRecord (score : JsValue) : JsValue :=
  .obj [("status", .str "done"), ("sentiment_score", score)]

/-- Function `runSentimentAnalysis(userText)`.  It returns `undefined` when
the `catch` block ends without a `return`. -/
def runSentimentAnalysis {σ : Type} (P : Platform σ) (userText : JsValue) : M σ JsValue := do
  enter "runSentimentAnalysis" [userText]
  consoleLog [txt "🚀 Running the sentiment analysis container..."]
  tryCatch
    (do
      let text ← subst P userText
      let result ← execSync P (sentimentRunCommand text)
      consoleLog [txt "📊 Sentiment Analysis Result:", txt result]
      let output ← liftE (JSON.parse (jsTrim result))
      let shown ← liftE (getProp output "sentiment_score")
      let shownText ← subst P shown
      consoleLog [txt ("Sentiment Score: " ++ shownText)]
      let score ← liftE (getProp output "sentiment_score")
      pure (sentimentRecord score))
    (fun error => do
      consoleError [txt "❌ Error running sentiment analysis container:", txt error.message]
      pure .undefined)

/-- The record `runDataCleaning` returns. -/
def cleaningRecord : JsValue :=
  .obj [("status", .str "done"), ("message", .str "Data cleaning completed successfully.")]

/-- Function `runDataCleaning(INPUT_FILENAME)`. -/
def runDataCleaning {σ : Type} (P : Platform σ) (INPUT_FILENAME : JsValue) : M σ JsValue := do
  enter "runDataCleaning" [INPUT_FILENAME]
  consoleLog [txt "🚀 Running the data cleaning container..."]
  tryCatch
    (do
      let filename ← subst P INPUT_FILENAME
      let result ← execSync P
        (cleaningRunCommand (envText P "AWS_ACCESS_KEY_ID") (envText P "AWS_SECRET_ACCESS_KEY")
          filename)
      consoleLog [txt "📂 Data Cleaning Output:", txt result]
      pure cleaningRecord)
    (fun error => do
      consoleError [txt "❌ Error running data cleaning container:", txt error.message]
      pure .undefined)

/-- Function `executeSentimentalAnalysis(userText)`. -/
def executeSentimentalAnalysis {σ : Type} (P : Platform σ) (userText : JsValue) :
    M σ JsValue := do
  enter "executeSentimentalAnalysis" [userText]
  consoleLog [txt "📢 Starting sentiment analysis..."]
  buildDockerImage P sentimentImage "./sentimental_analysis"
  runSentimentAnalysis P userText

/-- Function `executeDataCleaning(INPUT_FILENAME)`. -/
def executeDataCleaning {σ : Type} (P : Platform σ) (INPUT_FILENAME : JsValue) :
    M σ JsValue := do
  enter "executeDataCleaning" [INPUT_FILENAME]
  consoleLog [txt "📢 Starting data cleaning..."]
  buildDockerImage P dataCleaningImage "./datacleaning"
  runDataCleaning P INPUT_FILENAME

/-! ## `src/index.js` -/

/-- The system message of the completion request. -/
def systemInstruction : String :=
  "You are a language model that strictly responds in JSON format.\n" ++
  "        Identify the user's task and return a JSON object containing the \"task\" key.\n" ++
  "        If the user mentions a filename (e.g., \"data.csv\", \"report.xlsx\"), extract it and include it in the response as the \"filename\" key.\n" ++
  "\n" ++
  "        Example Inputs:\n" ++
  "        - \"Clean this dataset name uncleaned.csv\"\n" ++
  "        - \"Perform data cleaning on raw_data.xlsx\"\n" ++
  "        - \"Analyze this text: 'I love this product, it's amazing!'\"\n" ++
  "\n" ++
  "        Expected JSON Response:\n" ++
  "        \x7b \"task\": \"data_cleaning\", \"filename\": \"uncleaned.csv\" \x7d\n" ++
  "        \x7b \"task\": \"data_cleaning\", \"filename\": \"raw_data.xlsx\" \x7d\n" ++
  "        \x7b \"task\": \"sentiment_analysis\" \x7d\n" ++
  "\n" ++
  "        Important:\n" ++
  "        - Only include \"filename\" if a file is mentioned.\n" ++
  "        - Return JSON format only, without explanations.\n" ++
  "        "

/-- The request for the user's `message`. -/
def chatRequest (message : String) : ChatRequest :=
  { system := systemInstruction
    user := "Analyze the task in this message: \"" ++ message ++ "\""
    model := "llama-3.3-70b-versatile"
    responseFormat := "json_object"
    temperature := ⟨false, 0, 0⟩ }

/-- The expression `response.choices[0].message.content`: each step throws a
`TypeError` when what it reads from is missing. -/
def replyContent (response : ChatCompletion) : Except JsError Content :=
  match response.choices with
  | none => .error (typeError "Cannot read properties of undefined (reading 0)")
  | some choices =>
    match choices.head? with
    | none => .error (typeError "Cannot read properties of undefined (reading message)")
    | some choice =>
      match choice.message with
      | none => .error (typeError "Cannot read properties of undefined (reading content)")
      | some message => .ok message.content

/-- The text `JSON.parse` is applied to: `ToString` of the content. -/
def Content.toText : Content → String
  | .undefined => "undefined"
  | .null => "null"
  | .text s => s

/-- The body of the `try` block of `getGroqChatCompletion`. -/
def parseReply (response : ChatCompletion) : Except JsError JsValue :=
  match replyContent response with
  | .error e => .error e
  | .ok content => JSON.parse content.toText

/-- The record the `catch` block of `getGroqChatCompletion` returns. -/
def invalidJsonRecord : JsValue :=
  .obj [("error", .str "Invalid JSON response")]

/-- Function `getGroqChatCompletion(message)`. -/
def getGroqChatCompletion {σ : Type} (P : Platform σ) (message : String) : M σ JsValue := do
  enter "getGroqChatCompletion" [.str message]
  let response ← chatCreate P (chatRequest message)
  tryCatch
    (liftE (parseReply response))
    (fun error => do
      consoleError [txt "Error parsing response:", .err error]
      pure invalidJsonRecord)

/-- A parameter with a default value: an argument that is `undefined` or
left out takes the default. -/
def withDefault (arg dflt : JsValue) : JsValue :=
  match arg with
  | .undefined => dflt
  | v => v

/-- Function `executeTask(task, filename = null)`: an argument that is
`undefined` or left out takes the default. -/
def executeTask {σ : Type} (P : Platform σ) (task : JsValue) (filenameArg : JsValue) :
    M σ Unit := do
  enter "executeTask" [task, filenameArg]
  let filename : JsValue := withDefault filenameArg .null
  match task with
  | .str "sentiment_analysis" =>
    let userText ← (fun s => (.ok s.userInputMain, s) : M σ JsValue)
    let _ ← executeSentimentalAnalysis P userText
  | .str "data_cleaning" =>
    if truthy filename then
      let _ ← executeDataCleaning P filename
    else
      consoleLog [txt "❌ No filename detected for data cleaning."]
  | _ => consoleLog [txt "Unknown task:", .val task]

/-- The callback `main` hands to `rl.question`, run on the line the user
typed. -/
def mainCallback {σ : Type} (P : Platform σ) (userInput : String) : M σ Unit := do
  (fun s => (.ok (), { s with userInputMain := .str userInput }) : M σ Unit)
  let chatCompletion ← getGroqChatCompletion P userInput
  let task ← liftE (getProp chatCompletion "task")
  if truthy task then
    consoleLog [txt "Identified Task:", .val task]
    let filename ← liftE (getProp chatCompletion "filename")
    if truthy filename then
      consoleLog [txt "Filename detected:", .val filename]
      executeTask P task filename
    else
      executeTask P task .undefined
  else
    consoleLog [txt "Error identifying task:", .val chatCompletion]
  emit .close

/-! ## Observations on traces -/

/-- How many times the function `fn` of the program was entered. -/
def callsTo (fn : String) : List Event → Nat
  | [] => 0
  | .call f _ :: rest => (if f = fn then 1 else 0) + callsTo fn rest
  | _ :: rest => callsTo fn rest

/-- The commands handed to `execSync`, in order. -/
def commands : List Event → List String
  | [] => []
  | .exec cmd :: rest => cmd :: commands rest
  | _ :: rest => commands rest

/-- Two calls of `buildDockerImage` in a row, as in
`buildDockerImage(n, p); buildDockerImage(n, p);`. -/
def buildTwice {σ : Type} (P : Platform σ) (imageName path : String) : M σ Unit := do
  buildDockerImage P imageName path
  buildDockerImage P imageName path

/-- The query of `imageExists` found no image: it printed nothing but
whitespace, or it failed. -/
def answersAbsent : Except JsError String → Prop
  | .ok out => (jsTrim out).length = 0
  | .error _ => True

/-- The computation never enters `executeTask`. -/
def NoDispatch {σ α : Type} (m : M σ α) : Prop :=
  ∀ s, callsTo "executeTask" (m s).2.trace = callsTo "executeTask" s.trace

/-- The computation only adds events to the trace. -/
def Grows {σ α : Type} (m : M σ α) : Prop :=
  ∀ s, ∃ evs, (m s).2.trace = s.trace ++ evs

/-- One of the two build commands of the program. -/
def isBuildCommand (cmd : String) : Prop :=
  cmd = buildCommand sentimentImage "./sentimental_analysis" ∨
    cmd = buildCommand dataCleaningImage "./datacleaning"

/-- The computation throws nothing but the error of a failed image build. -/
def ThrowsOnlyBuild {σ α : Type} (P : Platform σ) (m : M σ α) : Prop :=
  ∀ s e, (m s).1 = .error e →
    ∃ cmd w w', isBuildCommand cmd ∧ P.execSync cmd w = (.error e, w')

/-- What `getGroqChatCompletion` returns for a reply whose content is the
string `content`: the parsed value, or the record of the `catch` block. -/
def classified (content : String) : JsValue :=
  match JSON.parse content with
  | .ok v => v
  | .error _ => invalidJsonRecord

/-! ## Example worlds -/

/-- Decimal digits of a number, most significant first. -/
def digitChars (n : Nat) : List Char :=
  (Nat.toDigits 10 n)

/-- Remove the trailing zeros of a mantissa, counting them; the first
argument bounds the steps. -/
def stripZeros : Nat → Nat → Nat → Nat × Nat
  | 0, m, z => (m, z)
  | fuel + 1, m, z => if m ≠ 0 ∧ m % 10 = 0 then stripZeros fuel (m / 10) (z + 1) else (m, z)

/-- `Number::toString` of the example worlds, by the rules of ECMAScript from
the shortest digits of the number.  It takes the digits of the decimal itself,
which are the shortest digits of its double when there are at most 15 of them
and the number is in the normal range. -/
def decimalText (x : JsNumber) : String :=
  if x.isZero then "0"
  else
    let (m, z) := stripZeros x.mant x.mant 0
    let digits := digitChars m
    let k : Int := digits.length
    let n : Int := x.exp + z + k
    let sign := if x.neg then "-" else ""
    let body : String :=
      if k ≤ n ∧ n ≤ 21 then
        ⟨digits ++ List.replicate (n - k).toNat '0'⟩
      else if 0 < n ∧ n ≤ 21 then
        ⟨digits.take n.toNat ++ '.' :: digits.drop n.toNat⟩
      else if -6 < n ∧ n ≤ 0 then
        ⟨'0' :: '.' :: (List.replicate (-n).toNat '0' ++ digits)⟩
      else
        let e := n - 1
        let expText := (if e < 0 then "e-" else "e+") ++ ⟨digitChars e.natAbs⟩
        if k = 1 then ⟨digits⟩ ++ expText
        else ⟨digits.take 1 ++ '.' :: digits.drop 1⟩ ++ expText
    sign ++ body

/-- The error `execSync` throws for a command that exits nonzero. -/
def commandFailed (cmd : String) : JsError :=
  ⟨"Error", "Command failed: " ++ cmd⟩

/-- An example world.  Its state is the list of images in the local store.
The existence query prints an id for an image in the store and nothing
otherwise; a build of one of the two images fails when `buildFails`, and
otherwise adds the image; every other command is a worker run and is
answered by `runAnswer`.  The completion endpoint answers `reply`. -/
def exampleWorld (buildFails : Bool) (runAnswer : Except JsError String)
    (reply : ChatCompletion) : Platform (List String) where
  execSync := fun cmd store =>
    if cmd = imagesCommand sentimentImage then
      (.ok (if sentimentImage ∈ store then "3f2a9c1d7b60\n" else ""), store)
    else if cmd = imagesCommand dataCleaningImage then
      (.ok (if dataCleaningImage ∈ store then "8e41b7c0a2d5\n" else ""), store)
    else if cmd = buildCommand sentimentImage "./sentimental_analysis" then
      if buildFails then (.error (commandFailed cmd), store) else (.ok "", sentimentImage :: store)
    else if cmd = buildCommand dataCleaningImage "./datacleaning" then
      if buildFails then (.error (commandFailed cmd), store) else (.ok "", dataCleaningImage :: store)
    else
      (runAnswer, store)
  chatCreate := fun _ store => (.ok reply, store)
  numberToString := decimalText
  env := fun _ => none

/-- A reply whose first choice carries the given content. -/
def replyWith (content : Content) : ChatCompletion :=
  ⟨some [⟨some ⟨content⟩⟩]⟩

/-- The state of a fresh process next to an image store. -/
def freshState (store : List String) : St (List String) :=
  ⟨store, .undefined, []⟩

/-! ## Lemmas on traces -/

theorem callsTo_append (fn : String) (t u : List Event) :
    callsTo fn (t ++ u) = callsTo fn t + callsTo fn u := by
  induction t with
  | nil => simp [callsTo]
  | cons e t ih => cases e <;> simp [callsTo, ih, Nat.add_assoc]

theorem commands_append (t u : List Event) :
    commands (t ++ u) = commands t ++ commands u := by
  induction t with
  | nil => simp [commands]
  | cons e t ih => cases e <;> simp [commands, ih]

/-! ## The step bounds of the parser are enough -/

theorem skipWs_length (cs : List Char) : (skipWs cs).length ≤ cs.length := by
  unfold skipWs
  induction cs with
  | nil => simp
  | cons c cs ih =>
    simp only [List.dropWhile]
    split
    · simp only [List.length_cons]; omega
    · simp

theorem hex4_length (cs : List Char) (n : Nat) (rest : List Char)
    (h : hex4 cs = some (n, rest)) : rest.length + 4 = cs.length := by
  unfold hex4 at h
  split at h
  · split at h
    · cases h; simp
    · cases h
  · cases h

/-- More steps than characters change nothing in `parseStringBody`. -/
theorem parseStringBody_fuel (fuel : Nat) (cs acc : List Char) :
    ∀ (fuel' : Nat), cs.length < fuel → cs.length < fuel' →
      parseStringBody fuel cs acc = parseStringBody fuel' cs acc := by
  induction fuel, cs, acc using parseStringBody.induct <;> intro fuel' h h' <;>
    cases fuel' <;> simp_all [parseStringBody]
  case case6.succ =>
    rename_i x1 hh x0 ih n'
    have l1 := hex4_length _ _ _ x0
    have l2 := hex4_length _ _ _ x1
    simp only [List.length_cons] at l1
    exact ih _ (by omega) (by omega)
  case case7.succ =>
    rename_i x1 n' hh x0 ih
    have l1 := hex4_length _ _ _ x0
    have l2 := hex4_length _ _ _ x1
    simp only [List.length_cons] at l1
    rw [if_neg (by omega), if_neg (by omega)]
    exact ih _ (by omega) (by omega)
  case case8.succ =>
    rename_i x0 hh n' hx ih
    have l1 := hex4_length _ _ _ x0
    exact ih _ (by omega) (by omega)
  case case9.succ =>
    rename_i x0 n' hh ih
    have l1 := hex4_length _ _ _ x0
    rw [if_neg (by omega), if_neg (by omega)]
    exact ih _ (by omega) (by omega)
  all_goals first
    | (rename_i ih; exact ih _ (by omega) (by omega))
    | (rename_i n' _ _ _ _ ih; rw [ih n' h'])

/-- What `parseStringBody` leaves is shorter than what it was given. -/
theorem parseStringBody_length (fuel : Nat) (cs acc : List Char) :
    ∀ (s : String) (rest : List Char),
      parseStringBody fuel cs acc = some (s, rest) → rest.length < cs.length := by
  induction fuel, cs, acc using parseStringBody.induct <;> intro s rest h <;>
    simp_all [parseStringBody]
  case case6 =>
    rename_i x1 hh x0 ih
    have l1 := hex4_length _ _ _ x0
    have l2 := hex4_length _ _ _ x1
    simp only [List.length_cons] at l1
    omega
  case case7 =>
    rename_i x1 hh x0 ih
    have l1 := hex4_length _ _ _ x0
    have l2 := hex4_length _ _ _ x1
    simp only [List.length_cons] at l1
    rw [if_neg (by omega)] at h
    have := ih _ _ h
    omega
  case case8 =>
    rename_i x0 hh hx ih
    have l1 := hex4_length _ _ _ x0
    omega
  case case9 =>
    rename_i x0 hh ih
    have l1 := hex4_length _ _ _ x0
    rw [if_neg (by omega)] at h
    have := ih _ _ h
    omega
  all_goals omega

theorem takeDigits_length (cs : List Char) :
    ∀ (acc k v k' : Nat) (rest : List Char),
      takeDigits cs acc k = (v, k', rest) → rest.length ≤ cs.length := by
  induction cs with
  | nil => intro acc k v k' rest h; simp [takeDigits] at h; simp [h]
  | cons c cs ih =>
    intro acc k v k' rest h
    unfold takeDigits at h
    split at h
    · have := ih _ _ _ _ _ h
      simp only [List.length_cons]
      omega
    · cases h; simp

theorem parseExponent_length (cs : List Char) (e : Int) (rest : List Char)
    (h : parseExponent cs = some (e, rest)) : rest.length ≤ cs.length := by
  unfold parseExponent at h
  split at h
  · split at h
    · split at h <;> split at h
      all_goals first
        | (cases h; done)
        | (rename_i hd
           cases h
           have := takeDigits_length _ _ _ _ _ _ hd
           simp only [List.length_cons] at *
           omega)
    · cases h; simp
  · cases h; simp

theorem parseFraction_length (ip : Nat) (cs : List Char) (m k : Nat) (rest : List Char)
    (h : parseFraction ip cs = some (m, k, rest)) : rest.length ≤ cs.length := by
  unfold parseFraction at h
  split at h
  · split at h
    · cases h
    · rename_i hd
      cases h
      have := takeDigits_length _ _ _ _ _ _ hd
      simp only [List.length_cons] at *
      omega
  · cases h; simp

theorem parseIntPart_length (c : Char) (rest : List Char) (hc : c.isDigit = true) :
    (parseIntPart c rest).2.length ≤ rest.length := by
  unfold parseIntPart
  split
  · simp
  · split
    rename_i hd
    simp only [takeDigits, hc, if_true] at hd
    exact takeDigits_length _ _ _ _ _ _ hd

theorem parseUnsigned_length (neg : Bool) (cs : List Char) (n : JsNumber) (rest : List Char)
    (h : parseUnsigned neg cs = some (n, rest)) : rest.length < cs.length := by
  unfold parseUnsigned at h
  split at h
  · cases h
  · rename_i c rest0
    split at h
    · cases h
    · rename_i hc
      have hint := parseIntPart_length c rest0 (by simpa using hc)
      split at h
      · cases h
      · rename_i hf
        have l1 := parseFraction_length _ _ _ _ _ hf
        split at h
        · cases h
        · rename_i he
          have l2 := parseExponent_length _ _ _ he
          cases h
          simp only [List.length_cons]
          omega

theorem parseNumber_length (cs : List Char) (n : JsNumber) (rest : List Char)
    (h : parseNumber cs = some (n, rest)) : rest.length < cs.length := by
  unfold parseNumber at h
  split at h
  · have := parseUnsigned_length _ _ _ _ h
    simp only [List.length_cons]
    omega
  · exact parseUnsigned_length _ _ _ _ h

theorem parseElements_length (pv : List Char → Option (JsValue × List Char))
    (hpv : ∀ cs v rest, pv cs = some (v, rest) → rest.length < cs.length) :
    ∀ (fuel : Nat) (acc : List JsValue) (cs : List Char) (v : JsValue) (rest : List Char),
      parseElements pv fuel acc cs = some (v, rest) → rest.length < cs.length := by
  intro fuel
  induction fuel with
  | zero => intro acc cs v rest h; simp [parseElements] at h
  | succ n ih =>
    intro acc cs v rest h
    have hs := skipWs_length cs
    unfold parseElements at h
    split at h
    · rename_i heq
      cases h
      rw [heq] at hs
      simp only [List.length_cons] at hs
      omega
    · rename_i heq
      rw [heq] at hs
      simp only [List.length_cons] at hs
      split at h
      · cases h
      · rename_i hv
        have l1 := hpv _ _ _ hv
        have l2 := ih _ _ _ _ h
        omega
    · cases h

theorem parseMember_length (pv : List Char → Option (JsValue × List Char))
    (hpv : ∀ cs v rest, pv cs = some (v, rest) → rest.length < cs.length)
    (cs : List Char) (kv : String × JsValue) (rest : List Char)
    (h : parseMember pv cs = some (kv, rest)) : rest.length < cs.length := by
  have hs := skipWs_length cs
  unfold parseMember at h
  split at h
  · rename_i heq
    rw [heq] at hs
    simp only [List.length_cons] at hs
    split at h
    · cases h
    · rename_i k rest1 hk
      have l1 := parseStringBody_length _ _ _ _ _ hk
      have hs1 := skipWs_length rest1
      split at h
      · rename_i heq1
        rw [heq1] at hs1
        simp only [List.length_cons] at hs1
        split at h
        · cases h
        · rename_i hv
          have l2 := hpv _ _ _ hv
          cases h
          omega
      · cases h
  · cases h

theorem parseMembers_length (pv : List Char → Option (JsValue × List Char))
    (hpv : ∀ cs v rest, pv cs = some (v, rest) → rest.length < cs.length) :
    ∀ (fuel : Nat) (acc : List (String × JsValue)) (cs : List Char) (v : JsValue)
      (rest : List Char), parseMembers pv fuel acc cs = some (v, rest) →
      rest.length < cs.length := by
  intro fuel
  induction fuel with
  | zero => intro acc cs v rest h; simp [parseMembers] at h
  | succ n ih =>
    intro acc cs v rest h
    have hs := skipWs_length cs
    unfold parseMembers at h
    split at h
    · rename_i heq
      cases h
      rw [heq] at hs
      simp only [List.length_cons] at hs
      omega
    · rename_i heq
      rw [heq] at hs
      simp only [List.length_cons] at hs
      split at h
      · cases h
      · rename_i hm
        have l1 := parseMember_length pv hpv _ _ _ hm
        have l2 := ih _ _ _ _ h
        omega
    · cases h

/-- What `parseValue` leaves is shorter than what it was given. -/
theorem parseValue_length :
    ∀ (fuel : Nat) (cs : List Char) (v : JsValue) (rest : List Char),
      parseValue fuel cs = some (v, rest) → rest.length < cs.length := by
  intro fuel
  induction fuel with
  | zero => intro cs v rest h; simp [parseValue] at h
  | succ n ih =>
    intro cs v rest h
    have hs := skipWs_length cs
    unfold parseValue at h
    split at h
    · rename_i heq
      rw [heq] at hs; cases h; simp only [List.length_cons] at hs; omega
    · rename_i heq
      rw [heq] at hs; cases h; simp only [List.length_cons] at hs; omega
    · rename_i heq
      rw [heq] at hs; cases h; simp only [List.length_cons] at hs; omega
    · rename_i heq
      rw [heq] at hs
      simp only [List.length_cons] at hs
      split at h
      · cases h
      · rename_i hk
        have l1 := parseStringBody_length _ _ _ _ _ hk
        cases h
        omega
    · rename_i rest0 heq
      rw [heq] at hs
      simp only [List.length_cons] at hs
      have hs0 := skipWs_length rest0
      split at h
      · rename_i heq0
        rw [heq0] at hs0
        cases h
        simp only [List.length_cons] at hs0
        omega
      · split at h
        · cases h
        · rename_i hv
          have l1 := ih _ _ _ hv
          have l2 := parseElements_length _ (ih) _ _ _ _ _ h
          omega
    · rename_i rest0 heq
      rw [heq] at hs
      simp only [List.length_cons] at hs
      have hs0 := skipWs_length rest0
      split at h
      · rename_i heq0
        rw [heq0] at hs0
        cases h
        simp only [List.length_cons] at hs0
        omega
      · split at h
        · cases h
        · rename_i hm
          have l1 := parseMember_length _ (ih) _ _ _ hm
          have l2 := parseMembers_length _ (ih) _ _ _ _ _ h
          omega
    · split at h
      · cases h
      · rename_i hn
        have l1 := parseNumber_length _ _ _ hn
        cases h
        omega

/-- In `parseElements` neither more steps than characters nor another value
parser that agrees on shorter inputs changes anything. -/
theorem parseElements_fuel (pv pv' : List Char → Option (JsValue × List Char))
    (hpv : ∀ cs v rest, pv cs = some (v, rest) → rest.length < cs.length) :
    ∀ (fuel fuel' : Nat) (acc : List JsValue) (cs : List Char),
      (∀ cs', cs'.length < cs.length → pv cs' = pv' cs') →
      cs.length < fuel → cs.length < fuel' →
      parseElements pv fuel acc cs = parseElements pv' fuel' acc cs := by
  intro fuel
  induction fuel with
  | zero => intro fuel' acc cs _ h; omega
  | succ n ih =>
    intro fuel' acc cs hagree h h'
    cases fuel' with
    | zero => omega
    | succ n' =>
      have hs := skipWs_length cs
      simp only [parseElements]
      split
      · rfl
      · rename_i rest0 heq
        rw [heq] at hs
        simp only [List.length_cons] at hs
        rw [← hagree rest0 (by omega)]
        cases hv : pv rest0 with
        | none => rfl
        | some p =>
          obtain ⟨v, rest1⟩ := p
          have l1 := hpv _ _ _ hv
          simp only
          exact ih _ _ _ (fun cs' hc => hagree cs' (by omega)) (by omega) (by omega)
      · rfl

theorem parseMember_agree (pv pv' : List Char → Option (JsValue × List Char))
    (cs : List Char) (hagree : ∀ cs', cs'.length < cs.length → pv cs' = pv' cs') :
    parseMember pv cs = parseMember pv' cs := by
  have hs := skipWs_length cs
  simp only [parseMember]
  split
  · rename_i rest0 heq
    rw [heq] at hs
    simp only [List.length_cons] at hs
    cases hk : parseStringBody (rest0.length + 1) rest0 [] with
    | none => rfl
    | some p =>
      obtain ⟨k, rest1⟩ := p
      have l1 := parseStringBody_length _ _ _ _ _ hk
      have hs1 := skipWs_length rest1
      simp only
      split
      · rename_i rest2 heq1
        rw [heq1] at hs1
        simp only [List.length_cons] at hs1
        rw [hagree rest2 (by omega)]
      · rfl
  · rfl

/-- In `parseMembers` neither more steps than characters nor another value
parser that agrees on shorter inputs changes anything. -/
theorem parseMembers_fuel (pv pv' : List Char → Option (JsValue × List Char))
    (hpv : ∀ cs v rest, pv cs = some (v, rest) → rest.length < cs.length) :
    ∀ (fuel fuel' : Nat) (acc : List (String × JsValue)) (cs : List Char),
      (∀ cs', cs'.length < cs.length → pv cs' = pv' cs') →
      cs.length < fuel → cs.length < fuel' →
      parseMembers pv fuel acc cs = parseMembers pv' fuel' acc cs := by
  intro fuel
  induction fuel with
  | zero => intro fuel' acc cs _ h; omega
  | succ n ih =>
    intro fuel' acc cs hagree h h'
    cases fuel' with
    | zero => omega
    | succ n' =>
      have hs := skipWs_length cs
      simp only [parseMembers]
      split
      · rfl
      · rename_i rest0 heq
        rw [heq] at hs
        simp only [List.length_cons] at hs
        rw [← parseMember_agree pv pv' rest0 (fun cs' hc => hagree cs' (by omega))]
        cases hm : parseMember pv rest0 with
        | none => rfl
        | some p =>
          obtain ⟨⟨k, v⟩, rest1⟩ := p
          have l1 := parseMember_length pv hpv _ _ _ hm
          simp only
          exact ih _ _ _ (fun cs' hc => hagree cs' (by omega)) (by omega) (by omega)
      · rfl

/-- More nesting depth than characters changes nothing in `parseValue`: the
bound `JSON.parse` gives it never cuts a parse short. -/
theorem parseValue_fuel :
    ∀ (fuel fuel' : Nat) (cs : List Char), cs.length < fuel → cs.length < fuel' →
      parseValue fuel cs = parseValue fuel' cs := by
  intro fuel
  induction fuel with
  | zero => intro fuel' cs h; omega
  | succ n ih =>
    intro fuel' cs h h'
    cases fuel' with
    | zero => omega
    | succ n' =>
      have hs := skipWs_length cs
      simp only [parseValue]
      split
      · rfl
      · rfl
      · rfl
      · rfl
      · rename_i rest0 heq
        rw [heq] at hs
        simp only [List.length_cons] at hs
        split
        · rfl
        · rw [← ih n' rest0 (by omega) (by omega)]
          cases hv : parseValue n rest0 with
          | none => rfl
          | some p =>
            obtain ⟨v, rest1⟩ := p
            have l1 := parseValue_length _ _ _ _ hv
            simp only
            exact parseElements_fuel _ _ (parseValue_length n) _ _ _ _
              (fun cs' hc => ih n' cs' (by omega) (by omega)) (by omega) (by omega)
      · rename_i rest0 heq
        rw [heq] at hs
        simp only [List.length_cons] at hs
        split
        · rfl
        · rw [← parseMember_agree (parseValue n) (parseValue n') rest0
            (fun cs' hc => ih n' cs' (by omega) (by omega))]
          cases hm : parseMember (parseValue n) rest0 with
          | none => rfl
          | some p =>
            obtain ⟨⟨k, v⟩, rest1⟩ := p
            have l1 := parseMember_length _ (parseValue_length n) _ _ _ hm
            simp only
            exact parseMembers_fuel _ _ (parseValue_length n) _ _ _ _
              (fun cs' hc => ih n' cs' (by omega) (by omega)) (by omega) (by omega)
      · rfl

/-- The bound `JSON.parse` sets is enough: any larger bound gives the same
answer, so no text is rejected for want of steps. -/
theorem JSON.parse_fuel (text : String) (fuel : Nat) (h : text.data.length < fuel) :
    JSON.parse text =
      (match parseValue fuel text.data with
        | none => .error syntaxError
        | some (v, rest) =>
          match skipWs rest with
          | [] => .ok v
          | _ => .error syntaxError) := by
  unfold JSON.parse
  rw [parseValue_fuel (text.data.length + 1) fuel text.data (by omega) h]

/-! ## Dispatch preconditions -/

/-- C1: `executeTask("data_cleaning", filename)` with the filename left out,
`undefined`, `null` or the empty string reports the missing filename on the
console and does nothing else: it returns, the outside world is untouched, the
only events are its own entry and the report, so no command is issued and
`buildDockerImage`, `runDataCleaning` and `runSentimentAnalysis` are not
entered. -/
theorem executeTask_missing_filename {σ : Type} (P : Platform σ) (filenameArg : JsValue)
    (s : St σ)
    (hAbsent : filenameArg = .undefined ∨ filenameArg = .null ∨ filenameArg = .str "") :
    executeTask P (.str "data_cleaning") filenameArg s =
        (.ok (), { s with trace := s.trace ++
          [.call "executeTask" [.str "data_cleaning", filenameArg],
           .log [txt "❌ No filename detected for data cleaning."]] }) ∧
      commands (executeTask P (.str "data_cleaning") filenameArg s).2.trace = commands s.trace ∧
      callsTo "buildDockerImage" (executeTask P (.str "data_cleaning") filenameArg s).2.trace =
        callsTo "buildDockerImage" s.trace ∧
      callsTo "runDataCleaning" (executeTask P (.str "data_cleaning") filenameArg s).2.trace =
        callsTo "runDataCleaning" s.trace ∧
      callsTo "runSentimentAnalysis" (executeTask P (.str "data_cleaning") filenameArg s).2.trace =
        callsTo "runSentimentAnalysis" s.trace := by
  have h : executeTask P (.str "data_cleaning") filenameArg s =
        (.ok (), { s with trace := s.trace ++
          [.call "executeTask" [.str "data_cleaning", filenameArg],
           .log [txt "❌ No filename detected for data cleaning."]] }) := by
    rcases hAbsent with h | h | h <;> subst h <;>
      simp [executeTask, withDefault, bind, M.bind, enter, emit, consoleLog, truthy]
  rw [h]
  simp [callsTo_append, commands_append, callsTo, commands]

theorem executeTask_missing_filename_witness :
    ((JsValue.str "" = .undefined ∨ JsValue.str "" = .null ∨ JsValue.str "" = .str "")) ∧
    (executeTask (exampleWorld false (.ok "") (replyWith .null)) (.str "data_cleaning") (.str "")
        (freshState [])).2.trace =
      [.call "executeTask" [.str "data_cleaning", .str ""],
       .log [txt "❌ No filename detected for data cleaning."]] :=
  ⟨Or.inr (Or.inr rfl),
    congrArg (fun r => r.2.trace)
      (executeTask_missing_filename (exampleWorld false (.ok "") (replyWith .null)) (.str "")
        (freshState []) (Or.inr (Or.inr rfl))).1⟩

/-! ## Normalising the sentiment worker's output -/

/-- C3: when the worker run succeeds and its output, trimmed, parses to a
JSON object whose `sentiment_score` is the number `n`, `runSentimentAnalysis`
returns the record with status `"done"` and that same number as
`sentiment_score`. -/
theorem runSentimentAnalysis_numeric_score {σ : Type} (P : Platform σ) (userText : JsValue)
    (s : St σ) (text raw : String) (w : σ) (fields : List (String × JsValue)) (n : JsNumber)
    (hText : toStringJs P.numberToString userText = .ok text)
    (hRun : P.execSync (sentimentRunCommand text) s.world = (.ok raw, w))
    (hParse : JSON.parse (jsTrim raw) = .ok (.obj fields))
    (hScore : lookupField "sentiment_score" fields = some (.num n)) :
    (runSentimentAnalysis P userText s).1 =
      .ok (.obj [("status", .str "done"), ("sentiment_score", .num n)]) := by
  simp [runSentimentAnalysis, bind, M.bind, tryCatch, enter, emit, consoleLog, subst, liftE,
    execSync, hText, hRun, hParse, hScore, pure, M.pure, getProp, toStringJs, sentimentRecord]

theorem runSentimentAnalysis_numeric_score_witness :
    JSON.parse (jsTrim "\x7b\"sentiment_score\": 0.87\x7d\n") =
        .ok (.obj [("sentiment_score", .num ⟨false, 87, -2⟩)]) ∧
      (runSentimentAnalysis
          (exampleWorld false (.ok "\x7b\"sentiment_score\": 0.87\x7d\n") (replyWith .null))
          (.str "I love this product") (freshState [sentimentImage])).1 =
        .ok (.obj [("status", .str "done"), ("sentiment_score", .num ⟨false, 87, -2⟩)]) :=
  ⟨rfl,
    runSentimentAnalysis_numeric_score
      (exampleWorld false (.ok "\x7b\"sentiment_score\": 0.87\x7d\n") (replyWith .null))
      (.str "I love this product") (freshState [sentimentImage]) "I love this product"
      "\x7b\"sentiment_score\": 0.87\x7d\n" [sentimentImage]
      [("sentiment_score", .num ⟨false, 87, -2⟩)] ⟨false, 87, -2⟩ rfl rfl rfl rfl⟩

/-- C8: when the worker run succeeds and its output, trimmed, is not
parseable as JSON, `runSentimentAnalysis` returns `undefined`: no record, so
no status `"done"` and no default score. -/
theorem runSentimentAnalysis_unparseable {σ : Type} (P : Platform σ) (userText : JsValue)
    (s : St σ) (text raw : String) (w : σ) (e : JsError)
    (hText : toStringJs P.numberToString userText = .ok text)
    (hRun : P.execSync (sentimentRunCommand text) s.world = (.ok raw, w))
    (hParse : JSON.parse (jsTrim raw) = .error e) :
    (runSentimentAnalysis P userText s).1 = .ok .undefined := by
  simp [runSentimentAnalysis, bind, M.bind, tryCatch, enter, emit, consoleLog, subst, liftE,
    execSync, hText, hRun, hParse, pure, M.pure, consoleError]

theorem runSentimentAnalysis_unparseable_witness :
    JSON.parse (jsTrim "Traceback (most recent call last):\n") = .error syntaxError ∧
      (runSentimentAnalysis
          (exampleWorld false (.ok "Traceback (most recent call last):\n") (replyWith .null))
          (.str "I love this product") (freshState [sentimentImage])).1 = .ok .undefined :=
  ⟨rfl,
    runSentimentAnalysis_unparseable
      (exampleWorld false (.ok "Traceback (most recent call last):\n") (replyWith .null))
      (.str "I love this product") (freshState [sentimentImage]) "I love this product"
      "Traceback (most recent call last):\n" [sentimentImage] syntaxError rfl rfl rfl⟩

/-- C4 (as amended): `runSentimentAnalysis` does not check the shape of the
parsed worker output and raises no schema violation.  When the run succeeds
and the trimmed output parses to `v`, it returns the record with status
`"done"` and, as `sentiment_score`, whatever reading that field of `v` gives,
numeric or not; it returns `undefined` when the field cannot be read (`v` is
`null`) or the value read cannot be turned into text for the log line.  In
particular an object without the field gives status `"done"` with
`sentiment_score` `undefined`. -/
theorem runSentimentAnalysis_no_schema_check {σ : Type} (P : Platform σ) (userText : JsValue)
    (s : St σ) (text raw : String) (w : σ) (v : JsValue)
    (hText : toStringJs P.numberToString userText = .ok text)
    (hRun : P.execSync (sentimentRunCommand text) s.world = (.ok raw, w))
    (hParse : JSON.parse (jsTrim raw) = .ok v) :
    (runSentimentAnalysis P userText s).1 =
        (match getProp v "sentiment_score" with
          | .error _ => .ok .undefined
          | .ok score =>
            match toStringJs P.numberToString score with
            | .error _ => .ok .undefined
            | .ok _ => .ok (.obj [("status", .str "done"), ("sentiment_score", score)])) ∧
      (∀ fields, v = .obj fields → lookupField "sentiment_score" fields = none →
        (runSentimentAnalysis P userText s).1 =
          .ok (.obj [("status", .str "done"), ("sentiment_score", .undefined)])) := by
  have main : (runSentimentAnalysis P userText s).1 =
        (match getProp v "sentiment_score" with
          | .error _ => .ok .undefined
          | .ok score =>
            match toStringJs P.numberToString score with
            | .error _ => .ok .undefined
            | .ok _ => .ok (.obj [("status", .str "done"), ("sentiment_score", score)])) := by
    simp only [runSentimentAnalysis, bind, M.bind, tryCatch, enter, emit, consoleLog, subst,
      liftE, execSync, hText, hRun, hParse, pure, M.pure, consoleError, sentimentRecord]
    cases hg : getProp v "sentiment_score" with
    | error e => simp [hg]
    | ok score =>
      cases ht : toStringJs P.numberToString score with
      | error e => simp [ht]
      | ok t => simp [ht]
  refine ⟨main, ?_⟩
  intro fields hv hnone
  rw [main, hv]
  simp [getProp, hnone, toStringJs]

theorem runSentimentAnalysis_no_schema_check_witness :
    JSON.parse (jsTrim "\x7b\"score\": 0.87\x7d\n") =
        .ok (.obj [("score", .num ⟨false, 87, -2⟩)]) ∧
      (runSentimentAnalysis
          (exampleWorld false (.ok "\x7b\"score\": 0.87\x7d\n") (replyWith .null))
          (.str "I love this product") (freshState [sentimentImage])).1 =
        .ok (.obj [("status", .str "done"), ("sentiment_score", .undefined)]) :=
  ⟨rfl,
    (runSentimentAnalysis_no_schema_check
      (exampleWorld false (.ok "\x7b\"score\": 0.87\x7d\n") (replyWith .null))
      (.str "I love this product") (freshState [sentimentImage]) "I love this product"
      "\x7b\"score\": 0.87\x7d\n" [sentimentImage] (.obj [("score", .num ⟨false, 87, -2⟩)])
      rfl rfl (by rfl)).2 [("score", .num ⟨false, 87, -2⟩)] rfl rfl⟩

/-- C4 fails on the code: the worker prints `{"score": 0.87}` (wrong field),
the run succeeds, and `runSentimentAnalysis` returns a record with status
`"done"` instead of failing. -/
theorem runSentimentAnalysis_wrong_field_done :
    (exampleWorld false (.ok "\x7b\"score\": 0.87\x7d") (replyWith .null)).execSync
        (sentimentRunCommand "I love this product") [sentimentImage] =
        (.ok "\x7b\"score\": 0.87\x7d", [sentimentImage]) ∧
      JSON.parse (jsTrim "\x7b\"score\": 0.87\x7d") =
        .ok (.obj [("score", .num ⟨false, 87, -2⟩)]) ∧
      (runSentimentAnalysis
          (exampleWorld false (.ok "\x7b\"score\": 0.87\x7d") (replyWith .null))
          (.str "I love this product") (freshState [sentimentImage])).1 =
        .ok (.obj [("status", .str "done"), ("sentiment_score", .undefined)]) :=
  ⟨rfl, rfl, rfl⟩

/-! ## Classification -/

theorem parseReply_no_choices : parseReply ⟨none⟩ =
    .error (typeError "Cannot read properties of undefined (reading 0)") := rfl

theorem parseReply_empty_choices : parseReply ⟨some []⟩ =
    .error (typeError "Cannot read properties of undefined (reading message)") := rfl

theorem parseReply_no_message (rest : List Choice) : parseReply ⟨some (⟨none⟩ :: rest)⟩ =
    .error (typeError "Cannot read properties of undefined (reading content)") := rfl

theorem parseReply_no_content (rest : List Choice) :
    parseReply ⟨some (⟨some ⟨.undefined⟩⟩ :: rest)⟩ = .error syntaxError := rfl

/-- C5: when the reply's content cannot be read or is not parseable as JSON
(the `try` block of `getGroqChatCompletion` throws, which includes a reply
without choices or without a message), `getGroqChatCompletion` does not throw:
it returns the record `{error: "Invalid JSON response"}`.  That record has no
`task` field, and `main`'s callback completes without entering
`executeTask`. -/
theorem getGroqChatCompletion_invalid_reply {σ : Type} (P : Platform σ) (message : String)
    (s : St σ) (response : ChatCompletion) (w : σ) (e : JsError)
    (hReply : P.chatCreate (chatRequest message) s.world = (.ok response, w))
    (hBad : parseReply response = .error e) :
    (getGroqChatCompletion P message s).1 = .ok (.obj [("error", .str "Invalid JSON response")]) ∧
      getProp (.obj [("error", .str "Invalid JSON response")]) "task" = .ok .undefined ∧
      (mainCallback P message s).1 = .ok () ∧
      callsTo "executeTask" (mainCallback P message s).2.trace =
        callsTo "executeTask" s.trace := by
  refine ⟨?_, rfl, ?_, ?_⟩
  · simp [getGroqChatCompletion, bind, M.bind, tryCatch, enter, emit, chatCreate, liftE, hReply,
      hBad, consoleError, pure, M.pure, invalidJsonRecord]
  · simp [mainCallback, getGroqChatCompletion, bind, M.bind, tryCatch, enter, emit, chatCreate,
      liftE, hReply, hBad, consoleError, consoleLog, pure, M.pure, invalidJsonRecord, getProp,
      lookupField, truthy]
  · simp [mainCallback, getGroqChatCompletion, bind, M.bind, tryCatch, enter, emit, chatCreate,
      liftE, hReply, hBad, consoleError, consoleLog, pure, M.pure, invalidJsonRecord, getProp,
      lookupField, truthy, callsTo_append, callsTo]

theorem getGroqChatCompletion_invalid_reply_witness :
    parseReply (replyWith (.text "Sure! The task is data cleaning.")) = .error syntaxError ∧
      (getGroqChatCompletion
          (exampleWorld false (.ok "") (replyWith (.text "Sure! The task is data cleaning.")))
          "Clean this dataset name uncleaned.csv" (freshState [])).1 =
        .ok (.obj [("error", .str "Invalid JSON response")]) ∧
      callsTo "executeTask" (mainCallback
          (exampleWorld false (.ok "") (replyWith (.text "Sure! The task is data cleaning.")))
          "Clean this dataset name uncleaned.csv" (freshState [])).2.trace = 0 :=
  have h := getGroqChatCompletion_invalid_reply
    (exampleWorld false (.ok "") (replyWith (.text "Sure! The task is data cleaning.")))
    "Clean this dataset name uncleaned.csv" (freshState [])
    (replyWith (.text "Sure! The task is data cleaning.")) [] syntaxError rfl rfl
  ⟨rfl, h.1, h.2.2.2⟩

/-- C6 fails on the code: for the reply `{"task": "translate_text"}`
`getGroqChatCompletion` returns the parsed object, unknown task included, and
raises no error. -/
theorem getGroqChatCompletion_returns_unknown_task :
    (getGroqChatCompletion
        (exampleWorld false (.ok "") (replyWith (.text "\x7b\"task\": \"translate_text\"\x7d")))
        "Translate this text to French" (freshState [])).1 =
      .ok (.obj [("task", .str "translate_text")]) :=
  rfl

/-- What `executeTask` does with a task that is not one of the two known
names: it logs `Unknown task:` with the task and does nothing else. -/
theorem executeTask_unknown_task {σ : Type} (P : Platform σ) (task filenameArg : JsValue)
    (s : St σ)
    (hUnknown : task ≠ .str "sentiment_analysis" ∧ task ≠ .str "data_cleaning") :
    executeTask P task filenameArg s =
      (.ok (), { s with trace := s.trace ++
        [.call "executeTask" [task, filenameArg], .log [txt "Unknown task:", .val task]] }) := by
  unfold executeTask
  simp only [bind, M.bind, enter, emit]
  split
  · exact absurd rfl hUnknown.1
  · exact absurd rfl hUnknown.2
  · simp [consoleLog, emit]

/-- C6 (as amended): `getGroqChatCompletion` does not validate the task.  For
a reply that parses to an object whose `task` is not one of the known names it
returns the parsed object unchanged and raises nothing.  What `main`'s callback
then does is fixed by the whole run: with a truthy `task` it logs the task
(and the filename, when truthy), enters `executeTask` once with that task,
and `executeTask` logs `Unknown task:` and does nothing else; with a falsy
`task` (missing, or the empty string) it logs `Error identifying task:` and
never enters `executeTask`.  Either way the callback completes and no command
is issued. -/
theorem unknown_task_reaches_dispatch {σ : Type} (P : Platform σ) (userInput : String)
    (s : St σ) (response : ChatCompletion) (w : σ) (fields : List (String × JsValue))
    (task : JsValue)
    (hReply : P.chatCreate (chatRequest userInput) s.world = (.ok response, w))
    (hParse : parseReply response = .ok (.obj fields))
    (hTask : getProp (.obj fields) "task" = .ok task)
    (hUnknown : task ≠ .str "sentiment_analysis" ∧ task ≠ .str "data_cleaning") :
    (getGroqChatCompletion P userInput s).1 = .ok (.obj fields) ∧
      mainCallback P userInput s =
        (.ok (),
          ⟨w, .str userInput,
            s.trace ++
              [.call "getGroqChatCompletion" [.str userInput], .request (chatRequest userInput)] ++
              (if truthy task then
                [.log [txt "Identified Task:", .val task]] ++
                  (if truthy ((lookupField "filename" fields).getD .undefined) then
                    [.log [txt "Filename detected:",
                        .val ((lookupField "filename" fields).getD .undefined)],
                      .call "executeTask"
                        [task, (lookupField "filename" fields).getD .undefined]]
                  else [.call "executeTask" [task, .undefined]]) ++
                  [.log [txt "Unknown task:", .val task]]
              else [.log [txt "Error identifying task:", .val (.obj fields)]]) ++
              [.close]⟩) ∧
      callsTo "executeTask" (mainCallback P userInput s).2.trace =
        callsTo "executeTask" s.trace + (if truthy task then 1 else 0) ∧
      commands (mainCallback P userInput s).2.trace = commands s.trace := by
  have hg : ∀ s0 : St σ, s0.world = s.world →
      getGroqChatCompletion P userInput s0 =
        (.ok (.obj fields), ⟨w, s0.userInputMain, s0.trace ++
          [.call "getGroqChatCompletion" [.str userInput],
            .request (chatRequest userInput)]⟩) := by
    intro s0 hw
    simp [getGroqChatCompletion, bind, M.bind, tryCatch, enter, emit, chatCreate, liftE, hw,
      hReply, hParse]
  have hF : getProp (.obj fields) "filename" =
      .ok ((lookupField "filename" fields).getD .undefined) := rfl
  have hg0 : getGroqChatCompletion P userInput
      (⟨s.world, .str userInput, s.trace⟩ : St σ) =
        (.ok (.obj fields), ⟨w, .str userInput, s.trace ++
          [.call "getGroqChatCompletion" [.str userInput],
            .request (chatRequest userInput)]⟩) := hg _ rfl
  have hmain : mainCallback P userInput s =
        (.ok (),
          ⟨w, .str userInput,
            s.trace ++
              [.call "getGroqChatCompletion" [.str userInput], .request (chatRequest userInput)] ++
              (if truthy task then
                [.log [txt "Identified Task:", .val task]] ++
                  (if truthy ((lookupField "filename" fields).getD .undefined) then
                    [.log [txt "Filename detected:",
                        .val ((lookupField "filename" fields).getD .undefined)],
                      .call "executeTask"
                        [task, (lookupField "filename" fields).getD .undefined]]
                  else [.call "executeTask" [task, .undefined]]) ++
                  [.log [txt "Unknown task:", .val task]]
              else [.log [txt "Error identifying task:", .val (.obj fields)]]) ++
              [.close]⟩) := by
    cases ht : truthy task with
    | false =>
      simp [mainCallback, bind, M.bind, hg0, liftE, hTask, ht, consoleLog, emit]
    | true =>
      cases hft : truthy ((lookupField "filename" fields).getD .undefined) with
      | false =>
        simp [mainCallback, bind, M.bind, hg0, liftE, hTask, hF, ht, hft, consoleLog, emit,
          executeTask_unknown_task P task _ _ hUnknown]
      | true =>
        simp [mainCallback, bind, M.bind, hg0, liftE, hTask, hF, ht, hft, consoleLog, emit,
          executeTask_unknown_task P task _ _ hUnknown]
  refine ⟨by rw [hg s rfl], hmain, ?_, ?_⟩
  · rw [hmain]
    cases ht : truthy task <;>
      cases hft : truthy ((lookupField "filename" fields).getD .undefined) <;>
      simp [callsTo_append, callsTo]
  · rw [hmain]
    cases ht : truthy task <;>
      cases hft : truthy ((lookupField "filename" fields).getD .undefined) <;>
      simp [commands_append, commands]

theorem unknown_task_reaches_dispatch_witness :
    parseReply (replyWith (.text "\x7b\"task\": \"translate_text\"\x7d")) =
        .ok (.obj [("task", .str "translate_text")]) ∧
      (JsValue.str "translate_text" ≠ .str "sentiment_analysis" ∧
        JsValue.str "translate_text" ≠ .str "data_cleaning") ∧
      callsTo "executeTask" (mainCallback
          (exampleWorld false (.ok "") (replyWith (.text "\x7b\"task\": \"translate_text\"\x7d")))
          "Translate this text to French" (freshState [])).2.trace =
        callsTo "executeTask" (freshState []).trace +
          (if truthy (.str "translate_text") then 1 else 0) ∧
      commands (mainCallback
          (exampleWorld false (.ok "") (replyWith (.text "\x7b\"task\": \"translate_text\"\x7d")))
          "Translate this text to French" (freshState [])).2.trace =
        commands (freshState []).trace :=
  have hne : JsValue.str "translate_text" ≠ .str "sentiment_analysis" ∧
      JsValue.str "translate_text" ≠ .str "data_cleaning" :=
    ⟨by simp, by simp⟩
  have h := unknown_task_reaches_dispatch
    (exampleWorld false (.ok "") (replyWith (.text "\x7b\"task\": \"translate_text\"\x7d")))
    "Translate this text to French" (freshState [])
    (replyWith (.text "\x7b\"task\": \"translate_text\"\x7d")) []
    [("task", .str "translate_text")] (.str "translate_text") rfl (by rfl) rfl hne
  ⟨rfl, hne, h.2.2.1, h.2.2.2⟩

theorem imagesCommand_ne_buildCommand (image name path : String) :
    imagesCommand image ≠ buildCommand name path := by
  intro h
  have h2 := congrArg String.data h
  simp [imagesCommand, buildCommand, String.data_append] at h2

/-- What `imageExists` does when the query is answered. -/
theorem imageExists_answered {σ : Type} (P : Platform σ) (image : String) (s : St σ)
    (out : String) (w : σ) (h : P.execSync (imagesCommand image) s.world = (.ok out, w)) :
    imageExists P image s =
      (.ok (decide (0 < (jsTrim out).length)),
        ⟨w, s.userInputMain,
          s.trace ++ [.call "imageExists" [.str image], .exec (imagesCommand image)]⟩) := by
  simp [imageExists, bind, M.bind, tryCatch, enter, emit, execSync, h, pure, M.pure]

/-- What `imageExists` does when the query fails. -/
theorem imageExists_failed {σ : Type} (P : Platform σ) (image : String) (s : St σ)
    (e : JsError) (w : σ) (h : P.execSync (imagesCommand image) s.world = (.error e, w)) :
    imageExists P image s =
      (.ok false,
        ⟨w, s.userInputMain,
          s.trace ++ [.call "imageExists" [.str image], .exec (imagesCommand image),
            .error [txt ("❌ Error checking image " ++ image ++ ":"), txt e.message]]⟩) := by
  simp [imageExists, bind, M.bind, tryCatch, enter, emit, execSync, h, pure, M.pure,
    consoleError]

/-- The existence query found the image: `buildDockerImage` issues no build. -/
theorem buildDockerImage_present {σ : Type} (P : Platform σ) (name path : String) (s : St σ)
    (out : String) (w : σ) (h : P.execSync (imagesCommand name) s.world = (.ok out, w))
    (hOut : 0 < (jsTrim out).length) :
    buildDockerImage P name path s =
      (.ok (),
        ⟨w, s.userInputMain,
          s.trace ++ [.call "buildDockerImage" [.str name, .str path],
            .call "imageExists" [.str name], .exec (imagesCommand name),
            .log [txt ("✅ Docker image " ++ name ++ " already exists. Skipping build.")]]⟩) := by
  have hs : P.execSync (imagesCommand name)
      ({ s with trace := s.trace ++ [.call "buildDockerImage" [.str name, .str path]] } : St σ).world
        = (.ok out, w) := h
  simp [buildDockerImage, bind, M.bind, enter, emit, imageExists_answered P name _ out w hs,
    hOut, consoleLog]

/-- The existence query found no image: `buildDockerImage` issues the build,
and throws what the build throws. -/
theorem buildDockerImage_absent {σ : Type} (P : Platform σ) (name path : String) (s : St σ)
    (q : Except JsError String) (w : σ) (h : P.execSync (imagesCommand name) s.world = (q, w))
    (hq : answersAbsent q) :
    (buildDockerImage P name path s).1 =
        (match (P.execSync (buildCommand name path) w).1 with
          | .ok _ => .ok ()
          | .error e => .error e) ∧
      (buildDockerImage P name path s).2.world = (P.execSync (buildCommand name path) w).2 ∧
      commands (buildDockerImage P name path s).2.trace =
        commands s.trace ++ [imagesCommand name, buildCommand name path] ∧
      ∀ fn, fn ≠ "buildDockerImage" → fn ≠ "imageExists" →
        callsTo fn (buildDockerImage P name path s).2.trace = callsTo fn s.trace := by
  have hs : P.execSync (imagesCommand name)
      ({ s with trace := s.trace ++ [.call "buildDockerImage" [.str name, .str path]] } : St σ).world
        = (q, w) := h
  cases q with
  | ok out =>
    have hOut : ¬ 0 < (jsTrim out).length := by
      simp only [answersAbsent] at hq
      omega
    rcases hb : P.execSync (buildCommand name path) w with ⟨r, w2⟩
    cases r <;>
      simp [buildDockerImage, bind, M.bind, enter, emit, imageExists_answered P name _ out w hs,
        hOut, consoleLog, execSync, hb, commands_append, commands, callsTo_append, callsTo] <;>
      intro fn h1 h2 <;> simp [Ne.symm h1, Ne.symm h2]
  | error e0 =>
    rcases hb : P.execSync (buildCommand name path) w with ⟨r, w2⟩
    cases r <;>
      simp [buildDockerImage, bind, M.bind, enter, emit, imageExists_failed P name _ e0 w hs,
        consoleLog, execSync, hb, commands_append, commands, callsTo_append, callsTo] <;>
      intro fn h1 h2 <;> simp [Ne.symm h1, Ne.symm h2]

/-! ## Provisioning -/

/-- C2: take a world in which the existence query for the image is always
answered by the container CLI (it succeeds, leaves the store as it is, and
prints something exactly when the image is present) and in which a successful
build makes the image present.  Then `buildDockerImage(name, path)` called
twice in a row issues the build command at most once, whatever the state of
the store it starts from. -/
theorem buildDockerImage_twice_builds_once {σ : Type} (P : Platform σ) (present : σ → Prop)
    (name path : String) (s : St σ)
    (hQuery : ∀ w, ∃ out, P.execSync (imagesCommand name) w = (.ok out, w) ∧
      (0 < (jsTrim out).length ↔ present w))
    (hBuild : ∀ w out w', P.execSync (buildCommand name path) w = (.ok out, w') → present w') :
    (commands (buildTwice P name path s).2.trace).count (buildCommand name path) ≤
      (commands s.trace).count (buildCommand name path) + 1 := by
  have hne : imagesCommand name ≠ buildCommand name path := imagesCommand_ne_buildCommand _ _ _
  obtain ⟨out, hq, hiff⟩ := hQuery s.world
  by_cases hp : 0 < (jsTrim out).length
  · -- present from the start: neither call builds
    have h1 := buildDockerImage_present P name path s out s.world hq hp
    obtain ⟨out2, hq2, hiff2⟩ := hQuery (buildDockerImage P name path s).2.world
    have hw : (buildDockerImage P name path s).2.world = s.world := by rw [h1]
    have hp2 : 0 < (jsTrim out2).length := hiff2.mpr (hw ▸ hiff.mp hp)
    have h2 := buildDockerImage_present P name path (buildDockerImage P name path s).2 out2 _
      hq2 hp2
    simp only [buildTwice, bind, M.bind]
    rw [h1] at h2 ⊢
    simp only [h2]
    simp [commands_append, commands, List.count_cons, hne]
  · -- absent: the first call builds
    have hq' : answersAbsent (.ok out) := by
      simp only [answersAbsent]
      omega
    obtain ⟨hres, hworld, hcmds, -⟩ := buildDockerImage_absent P name path s (.ok out) s.world hq hq'
    rcases hb : P.execSync (buildCommand name path) s.world with ⟨r, w2⟩
    rw [hb] at hres hworld
    cases r with
    | error e =>
      -- the build throws and the second call is not reached
      have : (buildTwice P name path s) = buildDockerImage P name path s := by
        simp only [buildTwice, bind, M.bind]
        rcases hx : buildDockerImage P name path s with ⟨r1, s1⟩
        rw [hx] at hres
        simp only at hres
        subst hres
        rfl
      rw [this, hcmds]
      simp [List.count_append, List.count_cons, hne]
    | ok o =>
      -- the build succeeds, the image is present, the second call skips the build
      have hpres : present w2 := hBuild _ _ _ hb
      obtain ⟨out2, hq2, hiff2⟩ := hQuery (buildDockerImage P name path s).2.world
      have hp2 : 0 < (jsTrim out2).length := hiff2.mpr (by rw [hworld]; exact hpres)
      have h2 := buildDockerImage_present P name path (buildDockerImage P name path s).2 out2 _
        hq2 hp2
      have : (buildTwice P name path s).2.trace =
          (buildDockerImage P name path s).2.trace ++
            [.call "buildDockerImage" [.str name, .str path],
              .call "imageExists" [.str name], .exec (imagesCommand name),
              .log [txt ("✅ Docker image " ++ name ++ " already exists. Skipping build.")]] := by
        simp only [buildTwice, bind, M.bind]
        rcases hx : buildDockerImage P name path s with ⟨r1, s1⟩
        rw [hx] at hres h2
        simp only at hres
        subst hres
        simp only [h2]
      rw [this, commands_append, hcmds]
      simp [commands, List.count_append, List.count_cons, hne]

theorem exampleWorld_query_answered (runAnswer : Except JsError String) (reply : ChatCompletion)
    (w : List String) :
    ∃ out, (exampleWorld false runAnswer reply).execSync (imagesCommand sentimentImage) w =
        (.ok out, w) ∧ (0 < (jsTrim out).length ↔ sentimentImage ∈ w) := by
  by_cases h : sentimentImage ∈ w
  · refine ⟨"3f2a9c1d7b60\n", by simp [exampleWorld, h], ?_⟩
    simp only [h, iff_true]
    decide
  · refine ⟨"", by simp [exampleWorld, h], ?_⟩
    simp only [h, iff_false]
    decide

theorem exampleWorld_build_adds (runAnswer : Except JsError String) (reply : ChatCompletion)
    (w : List String) (out : String) (w' : List String)
    (h : (exampleWorld false runAnswer reply).execSync
      (buildCommand sentimentImage "./sentimental_analysis") w = (.ok out, w')) :
    sentimentImage ∈ w' := by
  have hne : buildCommand sentimentImage "./sentimental_analysis" ≠ imagesCommand sentimentImage :=
    fun h => imagesCommand_ne_buildCommand _ _ _ h.symm
  have hne2 : buildCommand sentimentImage "./sentimental_analysis" ≠
      imagesCommand dataCleaningImage :=
    fun h => imagesCommand_ne_buildCommand _ _ _ h.symm
  simp only [exampleWorld, hne, hne2, if_false, if_true, Bool.false_eq_true] at h
  have := (Prod.mk.inj h).2
  rw [← this]
  simp

theorem buildDockerImage_twice_builds_once_witness :
    (∀ w, ∃ out, (exampleWorld false (.ok "") (replyWith .null)).execSync
        (imagesCommand sentimentImage) w = (.ok out, w) ∧
        (0 < (jsTrim out).length ↔ sentimentImage ∈ w)) ∧
      (∀ w out w', (exampleWorld false (.ok "") (replyWith .null)).execSync
        (buildCommand sentimentImage "./sentimental_analysis") w = (.ok out, w') →
        sentimentImage ∈ w') ∧
      (commands (buildTwice (exampleWorld false (.ok "") (replyWith .null)) sentimentImage
          "./sentimental_analysis" (freshState [])).2.trace).count
          (buildCommand sentimentImage "./sentimental_analysis") ≤
        (commands (freshState []).trace).count
          (buildCommand sentimentImage "./sentimental_analysis") + 1 :=
  ⟨exampleWorld_query_answered _ _, exampleWorld_build_adds _ _,
    buildDockerImage_twice_builds_once (exampleWorld false (.ok "") (replyWith .null))
      (fun w => sentimentImage ∈ w) sentimentImage "./sentimental_analysis" (freshState [])
      (exampleWorld_query_answered _ _) (exampleWorld_build_adds _ _)⟩

theorem grows_pure {σ α : Type} (a : α) : Grows (pure a : M σ α) :=
  fun _ => ⟨[], by simp [pure, M.pure]⟩

theorem grows_bind {σ α β : Type} {m : M σ α} {f : α → M σ β}
    (hm : Grows m) (hf : ∀ a, Grows (f a)) : Grows (m >>= f) := by
  intro s
  obtain ⟨evs, h1⟩ := hm s
  show ∃ evs, (M.bind m f s).2.trace = _
  unfold M.bind
  rcases hx : m s with ⟨r, s1⟩
  rw [hx] at h1
  cases r with
  | ok a =>
    obtain ⟨evs2, h2⟩ := hf a s1
    exact ⟨evs ++ evs2, by simp only [h2]; rw [h1, List.append_assoc]⟩
  | error e => exact ⟨evs, h1⟩

theorem grows_tryCatch {σ α : Type} {body : M σ α} {handler : JsError → M σ α}
    (hb : Grows body) (hh : ∀ e, Grows (handler e)) : Grows (tryCatch body handler) := by
  intro s
  obtain ⟨evs, h1⟩ := hb s
  unfold tryCatch
  rcases hx : body s with ⟨r, s1⟩
  rw [hx] at h1
  cases r with
  | ok a => exact ⟨evs, h1⟩
  | error e =>
    obtain ⟨evs2, h2⟩ := hh e s1
    exact ⟨evs ++ evs2, by simp only [h2]; rw [h1, List.append_assoc]⟩

theorem grows_liftE {σ α : Type} (r : Except JsError α) : Grows (liftE r : M σ α) :=
  fun _ => ⟨[], by simp [liftE]⟩

theorem grows_subst {σ : Type} (P : Platform σ) (v : JsValue) : Grows (subst P v) :=
  fun _ => ⟨[], by simp [subst, liftE]⟩

theorem grows_emit {σ : Type} (ev : Event) : Grows (emit ev : M σ Unit) :=
  fun _ => ⟨[ev], rfl⟩

theorem grows_execSync {σ : Type} (P : Platform σ) (cmd : String) : Grows (execSync P cmd) :=
  fun _ => ⟨[.exec cmd], by simp [execSync]⟩

theorem runSentimentAnalysis_grows {σ : Type} (P : Platform σ) (userText : JsValue) :
    Grows (runSentimentAnalysis P userText) := by
  unfold runSentimentAnalysis
  repeat (first
    | exact grows_emit _ | exact grows_execSync _ _ | exact grows_liftE _
    | exact grows_subst _ _ | exact grows_pure _
    | apply grows_bind | apply grows_tryCatch | intro _)

theorem runDataCleaning_grows {σ : Type} (P : Platform σ) (filename : JsValue) :
    Grows (runDataCleaning P filename) := by
  unfold runDataCleaning
  repeat (first
    | exact grows_emit _ | exact grows_execSync _ _ | exact grows_liftE _
    | exact grows_subst _ _ | exact grows_pure _
    | apply grows_bind | apply grows_tryCatch | intro _)

/-- The first command `buildDockerImage` issues is the existence query. -/
theorem buildDockerImage_queries_first {σ : Type} (P : Platform σ) (name path : String)
    (s : St σ) :
    ∃ rest, commands (buildDockerImage P name path s).2.trace =
      commands s.trace ++ imagesCommand name :: rest := by
  rcases hq : P.execSync (imagesCommand name) s.world with ⟨r, w⟩
  cases r with
  | ok out =>
    by_cases hp : 0 < (jsTrim out).length
    · rw [buildDockerImage_present P name path s out w hq hp]
      exact ⟨[], by simp [commands_append, commands]⟩
    · have ha : answersAbsent (.ok out) := by
        simp only [answersAbsent]
        omega
      exact ⟨_, (buildDockerImage_absent P name path s _ w hq ha).2.2.1⟩
  | error e =>
    exact ⟨_, (buildDockerImage_absent P name path s _ w hq trivial).2.2.1⟩

/-- What follows a computation in a sequence only adds to its commands. -/
theorem commands_bind_grows {σ α β : Type} (m : M σ α) (f : α → M σ β)
    (hf : ∀ a, Grows (f a)) (s : St σ) :
    ∃ more, commands ((m >>= f) s).2.trace = commands (m s).2.trace ++ more := by
  show ∃ more, commands (M.bind m f s).2.trace = _
  unfold M.bind
  rcases hx : m s with ⟨r, s1⟩
  cases r with
  | ok a =>
    obtain ⟨evs, h2⟩ := hf a s1
    exact ⟨commands evs, by simp only [h2, commands_append]⟩
  | error e => exact ⟨[], by simp⟩

/-- C9: in `executeSentimentalAnalysis` and in `executeDataCleaning` the image
is provisioned before the worker is run, and a failed build ends the call.
Whatever happens, the first command either function issues is the existence
query for its image.  When that query finds no image (it prints nothing, or
it fails) and the build command then throws `e`, the call throws `e`: it
returns no record, the commands issued are the query and the build and nothing
after them, and the worker runner is not entered. -/
theorem provisioning_failure_short_circuits {σ : Type} (P : Platform σ) (arg : JsValue)
    (s : St σ) :
    ((∃ rest, commands (executeSentimentalAnalysis P arg s).2.trace =
        commands s.trace ++ imagesCommand sentimentImage :: rest) ∧
      ∀ q w1 e w2, P.execSync (imagesCommand sentimentImage) s.world = (q, w1) →
        answersAbsent q →
        P.execSync (buildCommand sentimentImage "./sentimental_analysis") w1 = (.error e, w2) →
        (executeSentimentalAnalysis P arg s).1 = .error e ∧
          commands (executeSentimentalAnalysis P arg s).2.trace =
            commands s.trace ++
              [imagesCommand sentimentImage,
                buildCommand sentimentImage "./sentimental_analysis"] ∧
          callsTo "runSentimentAnalysis" (executeSentimentalAnalysis P arg s).2.trace =
            callsTo "runSentimentAnalysis" s.trace) ∧
    ((∃ rest, commands (executeDataCleaning P arg s).2.trace =
        commands s.trace ++ imagesCommand dataCleaningImage :: rest) ∧
      ∀ q w1 e w2, P.execSync (imagesCommand dataCleaningImage) s.world = (q, w1) →
        answersAbsent q →
        P.execSync (buildCommand dataCleaningImage "./datacleaning") w1 = (.error e, w2) →
        (executeDataCleaning P arg s).1 = .error e ∧
          commands (executeDataCleaning P arg s).2.trace =
            commands s.trace ++
              [imagesCommand dataCleaningImage, buildCommand dataCleaningImage "./datacleaning"] ∧
          callsTo "runDataCleaning" (executeDataCleaning P arg s).2.trace =
            callsTo "runDataCleaning" s.trace) := by
  refine ⟨⟨?_, ?_⟩, ⟨?_, ?_⟩⟩
  · have heq : executeSentimentalAnalysis P arg s =
        (buildDockerImage P sentimentImage "./sentimental_analysis" >>=
          fun _ => runSentimentAnalysis P arg)
          ({ s with trace := s.trace ++ [.call "executeSentimentalAnalysis" [arg]] ++
            [.log [txt "📢 Starting sentiment analysis..."]] } : St σ) := rfl
    obtain ⟨more, hmore⟩ := commands_bind_grows
      (buildDockerImage P sentimentImage "./sentimental_analysis")
      (fun _ => runSentimentAnalysis P arg) (fun _ => runSentimentAnalysis_grows P arg)
      ({ s with trace := s.trace ++ [.call "executeSentimentalAnalysis" [arg]] ++
        [.log [txt "📢 Starting sentiment analysis..."]] } : St σ)
    obtain ⟨rest, hrest⟩ := buildDockerImage_queries_first P sentimentImage
      "./sentimental_analysis"
      ({ s with trace := s.trace ++ [.call "executeSentimentalAnalysis" [arg]] ++
        [.log [txt "📢 Starting sentiment analysis..."]] } : St σ)
    refine ⟨rest ++ more, ?_⟩
    rw [heq, hmore, hrest]
    simp [commands_append, commands]
  · intro q w1 e w2 hq ha hb
    obtain ⟨hres, -, hcmds, hcalls⟩ := buildDockerImage_absent P sentimentImage
      "./sentimental_analysis"
      ({ s with trace := s.trace ++ [.call "executeSentimentalAnalysis" [arg]] ++
        [.log [txt "📢 Starting sentiment analysis..."]] } : St σ) q w1 hq ha
    have hcalls := hcalls "runSentimentAnalysis" (by decide) (by decide)
    rw [hb] at hres
    simp only [executeSentimentalAnalysis, bind, M.bind, enter, emit, consoleLog]
    rcases hx : buildDockerImage P sentimentImage "./sentimental_analysis" _ with ⟨r1, s1⟩
    rw [hx] at hres hcmds hcalls
    simp only at hres hcmds hcalls
    subst hres
    simp [hcmds, hcalls, commands_append, commands, callsTo_append, callsTo]
  · have heq : executeDataCleaning P arg s =
        (buildDockerImage P dataCleaningImage "./datacleaning" >>=
          fun _ => runDataCleaning P arg)
          ({ s with trace := s.trace ++ [.call "executeDataCleaning" [arg]] ++
            [.log [txt "📢 Starting data cleaning..."]] } : St σ) := rfl
    obtain ⟨more, hmore⟩ := commands_bind_grows
      (buildDockerImage P dataCleaningImage "./datacleaning")
      (fun _ => runDataCleaning P arg) (fun _ => runDataCleaning_grows P arg)
      ({ s with trace := s.trace ++ [.call "executeDataCleaning" [arg]] ++
        [.log [txt "📢 Starting data cleaning..."]] } : St σ)
    obtain ⟨rest, hrest⟩ := buildDockerImage_queries_first P dataCleaningImage
      "./datacleaning"
      ({ s with trace := s.trace ++ [.call "executeDataCleaning" [arg]] ++
        [.log [txt "📢 Starting data cleaning..."]] } : St σ)
    refine ⟨rest ++ more, ?_⟩
    rw [heq, hmore, hrest]
    simp [commands_append, commands]
  · intro q w1 e w2 hq ha hb
    obtain ⟨hres, -, hcmds, hcalls⟩ := buildDockerImage_absent P dataCleaningImage
      "./datacleaning"
      ({ s with trace := s.trace ++ [.call "executeDataCleaning" [arg]] ++
        [.log [txt "📢 Starting data cleaning..."]] } : St σ) q w1 hq ha
    have hcalls := hcalls "runDataCleaning" (by decide) (by decide)
    rw [hb] at hres
    simp only [executeDataCleaning, bind, M.bind, enter, emit, consoleLog]
    rcases hx : buildDockerImage P dataCleaningImage "./datacleaning" _ with ⟨r1, s1⟩
    rw [hx] at hres hcmds hcalls
    simp only at hres hcmds hcalls
    subst hres
    simp [hcmds, hcalls, commands_append, commands, callsTo_append, callsTo]

theorem provisioning_failure_short_circuits_witness :
    ((executeSentimentalAnalysis (exampleWorld true (.ok "") (replyWith .null))
        (.str "I love this product") (freshState [])).1 =
      .error (commandFailed (buildCommand sentimentImage "./sentimental_analysis")) ∧
      commands (executeSentimentalAnalysis (exampleWorld true (.ok "") (replyWith .null))
        (.str "I love this product") (freshState [])).2.trace =
        [imagesCommand sentimentImage, buildCommand sentimentImage "./sentimental_analysis"]) ∧
    ((executeDataCleaning (exampleWorld true (.ok "") (replyWith .null))
        (.str "uncleaned.csv") (freshState [])).1 =
      .error (commandFailed (buildCommand dataCleaningImage "./datacleaning")) ∧
      commands (executeDataCleaning (exampleWorld true (.ok "") (replyWith .null))
        (.str "uncleaned.csv") (freshState [])).2.trace =
        [imagesCommand dataCleaningImage, buildCommand dataCleaningImage "./datacleaning"]) :=
  have h1 := (provisioning_failure_short_circuits (exampleWorld true (.ok "") (replyWith .null))
    (.str "I love this product") (freshState [])).1.2 (.ok "") [] _ [] rfl (by simp [answersAbsent, jsTrim]) rfl
  have h2 := (provisioning_failure_short_circuits (exampleWorld true (.ok "") (replyWith .null))
    (.str "uncleaned.csv") (freshState [])).2.2 (.ok "") [] _ [] rfl (by simp [answersAbsent, jsTrim]) rfl
  ⟨⟨h1.1, h1.2.1⟩, ⟨h2.1, h2.2.1⟩⟩

/-! ## Running the data cleaning worker -/

/-- C7 fails on the code: the run command of the data cleaning worker
throws, and `runDataCleaning` returns `undefined` to its caller instead of
yielding an error. -/
theorem runDataCleaning_failed_run_returns_undefined :
    (exampleWorld false (.error (commandFailed "docker run")) (replyWith .null)).execSync
        (cleaningRunCommand "undefined" "undefined" "uncleaned.csv") [dataCleaningImage] =
        (.error (commandFailed "docker run"), [dataCleaningImage]) ∧
      (runDataCleaning (exampleWorld false (.error (commandFailed "docker run")) (replyWith .null))
        (.str "uncleaned.csv") (freshState [dataCleaningImage])).1 = .ok .undefined :=
  ⟨rfl, rfl⟩

/-- C7 (as amended): for every filename (one that can be put into the
command), when the run command throws, `runDataCleaning` catches the error,
prints it with `console.error` and returns `undefined`: nothing is thrown to
the caller and no record is returned.  It returns the record
`{status: "done", message: "Data cleaning completed successfully."}` exactly
when the run command succeeded. -/
theorem runDataCleaning_outcomes {σ : Type} (P : Platform σ) (filename : JsValue) (s : St σ)
    (text : String) (hText : toStringJs P.numberToString filename = .ok text) :
    (∀ e w,
      P.execSync (cleaningRunCommand (envText P "AWS_ACCESS_KEY_ID")
        (envText P "AWS_SECRET_ACCESS_KEY") text) s.world = (.error e, w) →
      runDataCleaning P filename s =
        (.ok .undefined,
          ⟨w, s.userInputMain,
            s.trace ++ [.call "runDataCleaning" [filename],
              .log [txt "🚀 Running the data cleaning container..."],
              .exec (cleaningRunCommand (envText P "AWS_ACCESS_KEY_ID")
                (envText P "AWS_SECRET_ACCESS_KEY") text),
              .error [txt "❌ Error running data cleaning container:", txt e.message]]⟩)) ∧
    ((runDataCleaning P filename s).1 =
        .ok (.obj [("status", .str "done"),
          ("message", .str "Data cleaning completed successfully.")]) ↔
      ∃ raw w, P.execSync (cleaningRunCommand (envText P "AWS_ACCESS_KEY_ID")
        (envText P "AWS_SECRET_ACCESS_KEY") text) s.world = (.ok raw, w)) := by
  constructor
  · intro e w h
    simp [runDataCleaning, bind, M.bind, tryCatch, enter, emit, consoleLog, subst, liftE,
      execSync, hText, h, consoleError, pure, M.pure]
  · rcases h : P.execSync (cleaningRunCommand (envText P "AWS_ACCESS_KEY_ID")
        (envText P "AWS_SECRET_ACCESS_KEY") text) s.world with ⟨r, w⟩
    cases r <;>
      simp [runDataCleaning, bind, M.bind, tryCatch, enter, emit, consoleLog, subst, liftE,
        execSync, hText, h, consoleError, pure, M.pure, cleaningRecord]

theorem runDataCleaning_outcomes_witness :
    (exampleWorld false (.error (commandFailed "docker run")) (replyWith .null)).execSync
        (cleaningRunCommand "undefined" "undefined" "uncleaned.csv") [dataCleaningImage] =
        (.error (commandFailed "docker run"), [dataCleaningImage]) ∧
      (runDataCleaning (exampleWorld false (.error (commandFailed "docker run")) (replyWith .null))
        (.str "uncleaned.csv") (freshState [dataCleaningImage])).2.trace =
        [.call "runDataCleaning" [.str "uncleaned.csv"],
          .log [txt "🚀 Running the data cleaning container..."],
          .exec (cleaningRunCommand "undefined" "undefined" "uncleaned.csv"),
          .error [txt "❌ Error running data cleaning container:",
            txt "Command failed: docker run"]] :=
  ⟨rfl,
    congrArg (fun r => r.2.trace)
      ((runDataCleaning_outcomes
        (exampleWorld false (.error (commandFailed "docker run")) (replyWith .null))
        (.str "uncleaned.csv") (freshState [dataCleaningImage]) "uncleaned.csv" rfl).1
        (commandFailed "docker run") [dataCleaningImage] rfl)⟩

/-! ## What the workers' pipelines can and cannot do -/

theorem noDispatch_pure {σ α : Type} (a : α) : NoDispatch (pure a : M σ α) :=
  fun _ => rfl

theorem noDispatch_bind {σ α β : Type} {m : M σ α} {f : α → M σ β}
    (hm : NoDispatch m) (hf : ∀ a, NoDispatch (f a)) : NoDispatch (m >>= f) := by
  intro s
  have h1 := hm s
  show callsTo "executeTask" (M.bind m f s).2.trace = _
  unfold M.bind
  rcases hx : m s with ⟨r, s1⟩
  rw [hx] at h1
  cases r with
  | ok a => simp only; rw [hf a s1]; exact h1
  | error e => exact h1

theorem noDispatch_tryCatch {σ α : Type} {body : M σ α} {handler : JsError → M σ α}
    (hb : NoDispatch body) (hh : ∀ e, NoDispatch (handler e)) :
    NoDispatch (tryCatch body handler) := by
  intro s
  have h1 := hb s
  unfold tryCatch
  rcases hx : body s with ⟨r, s1⟩
  rw [hx] at h1
  cases r with
  | ok a => exact h1
  | error e => simp only; rw [hh e s1]; exact h1

theorem noDispatch_liftE {σ α : Type} (r : Except JsError α) : NoDispatch (liftE r : M σ α) :=
  fun _ => rfl

theorem noDispatch_subst {σ : Type} (P : Platform σ) (v : JsValue) : NoDispatch (subst P v) :=
  fun _ => rfl

theorem noDispatch_enter {σ : Type} (fn : String) (args : List JsValue)
    (h : fn ≠ "executeTask") : NoDispatch (enter fn args : M σ Unit) := by
  intro s
  simp [enter, emit, callsTo_append, callsTo, h]

theorem noDispatch_consoleLog {σ : Type} (args : List LogArg) :
    NoDispatch (consoleLog args : M σ Unit) := by
  intro s
  simp [consoleLog, emit, callsTo_append, callsTo]

theorem noDispatch_consoleError {σ : Type} (args : List LogArg) :
    NoDispatch (consoleError args : M σ Unit) := by
  intro s
  simp [consoleError, emit, callsTo_append, callsTo]

theorem noDispatch_execSync {σ : Type} (P : Platform σ) (cmd : String) :
    NoDispatch (execSync P cmd) := by
  intro s
  simp [execSync, callsTo_append, callsTo]

theorem noDispatch_chatCreate {σ : Type} (P : Platform σ) (req : ChatRequest) :
    NoDispatch (chatCreate P req) := by
  intro s
  simp [chatCreate, callsTo_append, callsTo]

theorem imageExists_noDispatch {σ : Type} (P : Platform σ) (image : String) :
    NoDispatch (imageExists P image) := by
  unfold imageExists
  repeat (first
    | exact noDispatch_consoleLog _ | exact noDispatch_consoleError _
    | exact noDispatch_execSync _ _ | exact noDispatch_liftE _ | exact noDispatch_subst _ _
    | exact noDispatch_enter _ _ (by decide) | exact noDispatch_pure _
    | apply noDispatch_bind | apply noDispatch_tryCatch | intro _)

theorem buildDockerImage_noDispatch {σ : Type} (P : Platform σ) (name path : String) :
    NoDispatch (buildDockerImage P name path) := by
  unfold buildDockerImage
  apply noDispatch_bind (noDispatch_enter _ _ (by decide))
  intro _
  apply noDispatch_bind (imageExists_noDispatch P name)
  intro b
  cases b <;>
  repeat (first
    | exact noDispatch_consoleLog _ | exact noDispatch_consoleError _
    | exact noDispatch_execSync _ _ | exact noDispatch_liftE _ | exact noDispatch_subst _ _
    | exact noDispatch_enter _ _ (by decide) | exact noDispatch_pure _
    | apply noDispatch_bind | apply noDispatch_tryCatch | intro _)

theorem runSentimentAnalysis_noDispatch {σ : Type} (P : Platform σ) (userText : JsValue) :
    NoDispatch (runSentimentAnalysis P userText) := by
  unfold runSentimentAnalysis
  repeat (first
    | exact noDispatch_consoleLog _ | exact noDispatch_consoleError _
    | exact noDispatch_execSync _ _ | exact noDispatch_liftE _ | exact noDispatch_subst _ _
    | exact noDispatch_enter _ _ (by decide) | exact noDispatch_pure _
    | apply noDispatch_bind | apply noDispatch_tryCatch | intro _)

theorem runDataCleaning_noDispatch {σ : Type} (P : Platform σ) (filename : JsValue) :
    NoDispatch (runDataCleaning P filename) := by
  unfold runDataCleaning
  repeat (first
    | exact noDispatch_consoleLog _ | exact noDispatch_consoleError _
    | exact noDispatch_execSync _ _ | exact noDispatch_liftE _ | exact noDispatch_subst _ _
    | exact noDispatch_enter _ _ (by decide) | exact noDispatch_pure _
    | apply noDispatch_bind | apply noDispatch_tryCatch | intro _)

theorem executeSentimentalAnalysis_noDispatch {σ : Type} (P : Platform σ) (userText : JsValue) :
    NoDispatch (executeSentimentalAnalysis P userText) := by
  unfold executeSentimentalAnalysis
  repeat (first
    | exact noDispatch_consoleLog _
    | exact buildDockerImage_noDispatch _ _ _ | exact runSentimentAnalysis_noDispatch _ _
    | exact noDispatch_enter _ _ (by decide) | apply noDispatch_bind | intro _)

theorem executeDataCleaning_noDispatch {σ : Type} (P : Platform σ) (filename : JsValue) :
    NoDispatch (executeDataCleaning P filename) := by
  unfold executeDataCleaning
  repeat (first
    | exact noDispatch_consoleLog _
    | exact buildDockerImage_noDispatch _ _ _ | exact runDataCleaning_noDispatch _ _
    | exact noDispatch_enter _ _ (by decide) | apply noDispatch_bind | intro _)

theorem throwsOnlyBuild_pure {σ α : Type} (P : Platform σ) (a : α) :
    ThrowsOnlyBuild P (pure a : M σ α) := by
  intro s e h
  cases h

theorem throwsOnlyBuild_bind {σ α β : Type} {P : Platform σ} {m : M σ α} {f : α → M σ β}
    (hm : ThrowsOnlyBuild P m) (hf : ∀ a, ThrowsOnlyBuild P (f a)) :
    ThrowsOnlyBuild P (m >>= f) := by
  intro s e h
  have h1 := hm s e
  change (M.bind m f s).1 = .error e at h
  unfold M.bind at h
  rcases hx : m s with ⟨r, s1⟩
  rw [hx] at h h1
  cases r with
  | ok a => exact hf a s1 e h
  | error e1 => exact h1 (by simpa using h)

theorem throwsOnlyBuild_tryCatch {σ α : Type} {P : Platform σ} (body : M σ α)
    {handler : JsError → M σ α} (hh : ∀ e, ThrowsOnlyBuild P (handler e)) :
    ThrowsOnlyBuild P (tryCatch body handler) := by
  intro s e h
  unfold tryCatch at h
  rcases hx : body s with ⟨r, s1⟩
  rw [hx] at h
  cases r with
  | ok a => cases h
  | error e1 => exact hh e1 s1 e h

theorem throwsOnlyBuild_emit {σ : Type} (P : Platform σ) (ev : Event) :
    ThrowsOnlyBuild P (emit ev : M σ Unit) := by
  intro s e h
  cases h

theorem throwsOnlyBuild_build {σ : Type} (P : Platform σ) (cmd : String)
    (hc : isBuildCommand cmd) : ThrowsOnlyBuild P (execSync P cmd) := by
  intro s e h
  rcases hx : P.execSync cmd s.world with ⟨r, w⟩
  have h2 : (execSync P cmd s).1 = r := by simp [execSync, hx]
  rw [h2] at h
  subst h
  exact ⟨cmd, s.world, w, hc, hx⟩

theorem imageExists_throwsOnlyBuild {σ : Type} (P : Platform σ) (image : String) :
    ThrowsOnlyBuild P (imageExists P image) := by
  unfold imageExists
  apply throwsOnlyBuild_bind (throwsOnlyBuild_emit _ _)
  intro _
  apply throwsOnlyBuild_tryCatch
  intro _
  exact throwsOnlyBuild_bind (throwsOnlyBuild_emit _ _) (fun _ => throwsOnlyBuild_pure _ _)

theorem buildDockerImage_throwsOnlyBuild {σ : Type} (P : Platform σ) (name path : String)
    (hc : isBuildCommand (buildCommand name path)) :
    ThrowsOnlyBuild P (buildDockerImage P name path) := by
  unfold buildDockerImage
  apply throwsOnlyBuild_bind (throwsOnlyBuild_emit _ _)
  intro _
  apply throwsOnlyBuild_bind (imageExists_throwsOnlyBuild P name)
  intro b
  cases b
  · exact throwsOnlyBuild_bind (throwsOnlyBuild_emit _ _)
      (fun _ => throwsOnlyBuild_bind (throwsOnlyBuild_build P _ hc)
        (fun _ => throwsOnlyBuild_emit _ _))
  · exact throwsOnlyBuild_emit _ _

theorem runSentimentAnalysis_throwsOnlyBuild {σ : Type} (P : Platform σ) (userText : JsValue) :
    ThrowsOnlyBuild P (runSentimentAnalysis P userText) := by
  unfold runSentimentAnalysis
  apply throwsOnlyBuild_bind (throwsOnlyBuild_emit _ _)
  intro _
  apply throwsOnlyBuild_bind (throwsOnlyBuild_emit _ _)
  intro _
  apply throwsOnlyBuild_tryCatch
  intro _
  exact throwsOnlyBuild_bind (throwsOnlyBuild_emit _ _) (fun _ => throwsOnlyBuild_pure _ _)

theorem runDataCleaning_throwsOnlyBuild {σ : Type} (P : Platform σ) (filename : JsValue) :
    ThrowsOnlyBuild P (runDataCleaning P filename) := by
  unfold runDataCleaning
  apply throwsOnlyBuild_bind (throwsOnlyBuild_emit _ _)
  intro _
  apply throwsOnlyBuild_bind (throwsOnlyBuild_emit _ _)
  intro _
  apply throwsOnlyBuild_tryCatch
  intro _
  exact throwsOnlyBuild_bind (throwsOnlyBuild_emit _ _) (fun _ => throwsOnlyBuild_pure _ _)

theorem executeSentimentalAnalysis_throwsOnlyBuild {σ : Type} (P : Platform σ)
    (userText : JsValue) : ThrowsOnlyBuild P (executeSentimentalAnalysis P userText) := by
  unfold executeSentimentalAnalysis
  exact throwsOnlyBuild_bind (throwsOnlyBuild_emit _ _)
    (fun _ => throwsOnlyBuild_bind (throwsOnlyBuild_emit _ _)
      (fun _ => throwsOnlyBuild_bind (buildDockerImage_throwsOnlyBuild P _ _ (Or.inl rfl))
        (fun _ => runSentimentAnalysis_throwsOnlyBuild P userText)))

theorem executeDataCleaning_throwsOnlyBuild {σ : Type} (P : Platform σ)
    (filename : JsValue) : ThrowsOnlyBuild P (executeDataCleaning P filename) := by
  unfold executeDataCleaning
  exact throwsOnlyBuild_bind (throwsOnlyBuild_emit _ _)
    (fun _ => throwsOnlyBuild_bind (throwsOnlyBuild_emit _ _)
      (fun _ => throwsOnlyBuild_bind (buildDockerImage_throwsOnlyBuild P _ _ (Or.inr rfl))
        (fun _ => runDataCleaning_throwsOnlyBuild P filename)))

/-- The body of `executeTask` after its entry never enters `executeTask`
again, so one call is one entry. -/
theorem executeTask_entered_once {σ : Type} (P : Platform σ) (task filenameArg : JsValue)
    (s : St σ) :
    callsTo "executeTask" (executeTask P task filenameArg s).2.trace =
      callsTo "executeTask" s.trace + 1 := by
  have hbody : ∀ (m : M σ Unit), NoDispatch m →
      callsTo "executeTask" ((enter "executeTask" [task, filenameArg] >>= fun _ => m) s).2.trace =
        callsTo "executeTask" s.trace + 1 := by
    intro m hm
    show callsTo "executeTask" (M.bind _ _ s).2.trace = _
    simp only [M.bind, enter, emit]
    rw [hm]
    simp [callsTo_append, callsTo]
  unfold executeTask
  apply hbody
  simp only []
  split
  · exact noDispatch_bind (fun _ => rfl)
      (fun _ => noDispatch_bind (executeSentimentalAnalysis_noDispatch P _)
        (fun _ => noDispatch_pure _))
  · split
    · exact noDispatch_bind (executeDataCleaning_noDispatch P _) (fun _ => noDispatch_pure _)
    · exact noDispatch_consoleLog _
  · exact noDispatch_consoleLog _

theorem executeTask_throwsOnlyBuild {σ : Type} (P : Platform σ) (task filenameArg : JsValue) :
    ThrowsOnlyBuild P (executeTask P task filenameArg) := by
  unfold executeTask
  apply throwsOnlyBuild_bind (throwsOnlyBuild_emit _ _)
  intro _
  simp only []
  split
  · refine throwsOnlyBuild_bind ?_
      (fun _ => throwsOnlyBuild_bind (executeSentimentalAnalysis_throwsOnlyBuild P _)
        (fun _ => throwsOnlyBuild_pure _ _))
    intro s e h
    cases h
  · split
    · exact throwsOnlyBuild_bind (executeDataCleaning_throwsOnlyBuild P _)
        (fun _ => throwsOnlyBuild_pure _ _)
    · exact throwsOnlyBuild_emit _ _
  · exact throwsOnlyBuild_emit _ _

/-! ## `JSON.parse` never gives `undefined` -/

theorem parseElements_ne_undefined (pv : List Char → Option (JsValue × List Char)) :
    ∀ (fuel : Nat) (acc : List JsValue) (cs : List Char) (v : JsValue) (rest : List Char),
      parseElements pv fuel acc cs = some (v, rest) → v ≠ .undefined := by
  intro fuel
  induction fuel with
  | zero => intro acc cs v rest h; simp [parseElements] at h
  | succ n ih =>
    intro acc cs v rest h
    unfold parseElements at h
    split at h
    · cases h; simp
    · split at h
      · cases h
      · exact ih _ _ _ _ h
    · cases h

theorem parseMembers_ne_undefined (pv : List Char → Option (JsValue × List Char)) :
    ∀ (fuel : Nat) (acc : List (String × JsValue)) (cs : List Char) (v : JsValue)
      (rest : List Char), parseMembers pv fuel acc cs = some (v, rest) → v ≠ .undefined := by
  intro fuel
  induction fuel with
  | zero => intro acc cs v rest h; simp [parseMembers] at h
  | succ n ih =>
    intro acc cs v rest h
    unfold parseMembers at h
    split at h
    · cases h; simp
    · split at h
      · cases h
      · exact ih _ _ _ _ h
    · cases h

theorem parseValue_ne_undefined (fuel : Nat) (cs : List Char) (v : JsValue) (rest : List Char)
    (h : parseValue fuel cs = some (v, rest)) : v ≠ .undefined := by
  cases fuel with
  | zero => simp [parseValue] at h
  | succ n =>
    unfold parseValue at h
    split at h
    · cases h; simp
    · cases h; simp
    · cases h; simp
    · split at h
      · cases h
      · cases h; simp
    · split at h
      · cases h; simp
      · split at h
        · cases h
        · exact parseElements_ne_undefined _ _ _ _ _ _ h
    · split at h
      · cases h; simp
      · split at h
        · cases h
        · exact parseMembers_ne_undefined _ _ _ _ _ _ h
    · split at h
      · cases h
      · cases h; simp

theorem JSON.parse_ne_undefined (text : String) : JSON.parse text ≠ .ok .undefined := by
  intro h
  unfold JSON.parse at h
  split at h
  · cases h
  · rename_i v rest hv
    split at h
    · cases h
      exact parseValue_ne_undefined _ _ _ _ hv rfl
    · cases h

theorem classified_ne_undefined (content : String) : classified content ≠ .undefined := by
  unfold classified
  cases h : JSON.parse content with
  | ok v =>
    intro hv
    simp only at hv
    subst hv
    exact JSON.parse_ne_undefined content h
  | error e => simp [invalidJsonRecord]

/-- Reading a property succeeds on every value but `undefined` and `null`. -/
theorem getProp_ok (v : JsValue) (k : String) (h1 : v ≠ .undefined) (h2 : v ≠ .null) :
    ∃ t, getProp v k = .ok t := by
  cases v <;> simp [getProp] at h1 h2 ⊢

/-! ## The callback of `main` -/

/-- With a reply whose content is a string, `getGroqChatCompletion` returns
`classified content` and enters no `executeTask`. -/
theorem getGroqChatCompletion_classified {σ : Type} (P : Platform σ) (message : String)
    (s : St σ) (response : ChatCompletion) (w : σ) (content : String)
    (hReply : P.chatCreate (chatRequest message) s.world = (.ok response, w))
    (hContent : replyContent response = .ok (.text content)) :
    ∃ s1, getGroqChatCompletion P message s = (.ok (classified content), s1) ∧
      callsTo "executeTask" s1.trace = callsTo "executeTask" s.trace := by
  cases hp : JSON.parse content with
  | ok v =>
    have h : getGroqChatCompletion P message s =
        (.ok v, ⟨w, s.userInputMain, s.trace ++
          [.call "getGroqChatCompletion" [.str message], .request (chatRequest message)]⟩) := by
      simp [getGroqChatCompletion, bind, M.bind, tryCatch, enter, emit, chatCreate, liftE,
        hReply, parseReply, hContent, Content.toText, hp]
    refine ⟨(getGroqChatCompletion P message s).2, ?_, ?_⟩
    · rw [h]
      simp only [classified, hp]
    · rw [h]
      simp [callsTo_append, callsTo]
  | error e =>
    have h : getGroqChatCompletion P message s =
        (.ok invalidJsonRecord, ⟨w, s.userInputMain, s.trace ++
          [.call "getGroqChatCompletion" [.str message], .request (chatRequest message),
            .error [txt "Error parsing response:", .err e]]⟩) := by
      simp [getGroqChatCompletion, bind, M.bind, tryCatch, enter, emit, chatCreate, liftE,
        hReply, parseReply, hContent, Content.toText, hp, consoleError, pure, M.pure]
    refine ⟨(getGroqChatCompletion P message s).2, ?_, ?_⟩
    · rw [h]
      simp only [classified, hp]
    · rw [h]
      simp [callsTo_append, callsTo]

theorem getProp_ok_of_ok (v : JsValue) (k k' : String) (t : JsValue)
    (h : getProp v k = .ok t) : ∃ t', getProp v k' = .ok t' := by
  cases v <;> simp [getProp] at h ⊢

/-- The callback of `main` once the reply's `task` has been read: it enters
`executeTask` once when `task` is truthy and not at all otherwise, completes
when `task` is falsy, and raises nothing but the error of a failed build. -/
theorem mainCallback_of_task {σ : Type} (P : Platform σ) (userInput : String) (s : St σ)
    (response : ChatCompletion) (w : σ) (content : String) (task : JsValue)
    (hReply : P.chatCreate (chatRequest userInput) s.world = (.ok response, w))
    (hContent : replyContent response = .ok (.text content))
    (hTask : getProp (classified content) "task" = .ok task) :
    callsTo "executeTask" (mainCallback P userInput s).2.trace =
        callsTo "executeTask" s.trace + (if truthy task then 1 else 0) ∧
      (truthy task = false → (mainCallback P userInput s).1 = .ok ()) ∧
      (∀ e, (mainCallback P userInput s).1 = .error e →
        ∃ cmd w1 w2, isBuildCommand cmd ∧ P.execSync cmd w1 = (.error e, w2)) := by
  obtain ⟨s1, hg, hc1⟩ := getGroqChatCompletion_classified P userInput
    ({ s with userInputMain := .str userInput } : St σ) response w content hReply hContent
  obtain ⟨filename, hf⟩ := getProp_ok_of_ok _ _ "filename" _ hTask
  simp only at hc1
  cases ht : truthy task with
  | false =>
    have hm : mainCallback P userInput s =
        (.ok (), { s1 with trace := s1.trace ++
          [.log [txt "Error identifying task:", .val (classified content)]] ++ [.close] }) := by
      simp [mainCallback, bind, M.bind, hg, liftE, hTask, ht, consoleLog, emit]
    rw [hm]
    simp [callsTo_append, callsTo, hc1]
  | true =>
    -- the state in which `executeTask` is entered, and its argument
    have key : ∃ (arg : JsValue) (s2 : St σ),
        callsTo "executeTask" s2.trace = callsTo "executeTask" s.trace ∧
        mainCallback P userInput s =
          (match executeTask P task arg s2 with
            | (.ok _, s3) => (.ok (), { s3 with trace := s3.trace ++ [.close] })
            | (.error e, s3) => (.error e, s3)) := by
      cases hft : truthy filename with
      | true =>
        refine ⟨filename, { s1 with trace := s1.trace ++
          [.log [txt "Identified Task:", .val task]] ++
          [.log [txt "Filename detected:", .val filename]] }, ?_, ?_⟩
        · simp [callsTo_append, callsTo, hc1]
        · simp only [mainCallback, bind, M.bind, hg, liftE, hTask, ht, hf, hft, consoleLog, emit,
            if_true]
          rcases executeTask P task filename _ with ⟨r, s3⟩
          cases r <;> rfl
      | false =>
        refine ⟨.undefined, { s1 with trace := s1.trace ++
          [.log [txt "Identified Task:", .val task]] }, ?_, ?_⟩
        · simp [callsTo_append, callsTo, hc1]
        · simp only [mainCallback, bind, M.bind, hg, liftE, hTask, ht, hf, hft, consoleLog, emit,
            if_true, Bool.false_eq_true, if_false]
          rcases executeTask P task .undefined _ with ⟨r, s3⟩
          cases r <;> rfl
    obtain ⟨arg, s2, hc2, hm⟩ := key
    have hone := executeTask_entered_once P task arg s2
    have hthrow := executeTask_throwsOnlyBuild P task arg s2
    rw [hm]
    rcases hx : executeTask P task arg s2 with ⟨r, s3⟩
    rw [hx] at hone hthrow
    cases r with
    | ok u =>
      refine ⟨?_, (by intro h; cases h), (by intro e h; cases h)⟩
      simp only at hone
      simp [callsTo_append, callsTo, hone, hc2]
    | error e0 =>
      refine ⟨?_, (by intro h; cases h), ?_⟩
      · simp only at hone
        simp [hone, hc2]
      · intro e h
        exact hthrow e h

/-- C10 (as amended): take a reply whose content is a string and whose parsed
value is not `null` (a reply that does not parse counts with the error record
as its value).  Then the `task` of that value can be read, and `main`'s
callback enters `executeTask` exactly once when `task` is truthy and not at all
otherwise; it completes without raising when `task` is falsy; and whatever it
raises is the error of a failed image build, thrown through `executeTask`. -/
theorem mainCallback_dispatch {σ : Type} (P : Platform σ) (userInput : String) (s : St σ)
    (response : ChatCompletion) (w : σ) (content : String)
    (hReply : P.chatCreate (chatRequest userInput) s.world = (.ok response, w))
    (hContent : replyContent response = .ok (.text content))
    (hNotNull : classified content ≠ .null) :
    ∃ task, getProp (classified content) "task" = .ok task ∧
      callsTo "executeTask" (mainCallback P userInput s).2.trace =
        callsTo "executeTask" s.trace + (if truthy task then 1 else 0) ∧
      (truthy task = false → (mainCallback P userInput s).1 = .ok ()) ∧
      (∀ e, (mainCallback P userInput s).1 = .error e →
        ∃ cmd w1 w2, isBuildCommand cmd ∧ P.execSync cmd w1 = (.error e, w2)) := by
  obtain ⟨task, hTask⟩ := getProp_ok (classified content) "task"
    (classified_ne_undefined content) hNotNull
  exact ⟨task, hTask, mainCallback_of_task P userInput s response w content task hReply
    hContent hTask⟩

theorem mainCallback_dispatch_witness :
    replyContent (replyWith (.text
        "\x7b\"task\": \"data_cleaning\", \"filename\": \"uncleaned.csv\"\x7d")) =
        .ok (.text "\x7b\"task\": \"data_cleaning\", \"filename\": \"uncleaned.csv\"\x7d") ∧
      classified "\x7b\"task\": \"data_cleaning\", \"filename\": \"uncleaned.csv\"\x7d" ≠
        .null ∧
      ∃ task,
        getProp (classified
          "\x7b\"task\": \"data_cleaning\", \"filename\": \"uncleaned.csv\"\x7d") "task" =
          .ok task ∧
        callsTo "executeTask" (mainCallback
          (exampleWorld false (.ok "cleaned 120 rows\n") (replyWith (.text
            "\x7b\"task\": \"data_cleaning\", \"filename\": \"uncleaned.csv\"\x7d")))
          "Clean this dataset name uncleaned.csv" (freshState [])).2.trace =
          callsTo "executeTask" (freshState []).trace + (if truthy task then 1 else 0) :=
  have hne : classified
      "\x7b\"task\": \"data_cleaning\", \"filename\": \"uncleaned.csv\"\x7d" ≠ .null := by
    have h : classified
        "\x7b\"task\": \"data_cleaning\", \"filename\": \"uncleaned.csv\"\x7d" =
        .obj [("task", .str "data_cleaning"), ("filename", .str "uncleaned.csv")] := by rfl
    rw [h]
    simp
  have h := mainCallback_dispatch
    (exampleWorld false (.ok "cleaned 120 rows\n") (replyWith (.text
      "\x7b\"task\": \"data_cleaning\", \"filename\": \"uncleaned.csv\"\x7d")))
    "Clean this dataset name uncleaned.csv" (freshState [])
    (replyWith (.text "\x7b\"task\": \"data_cleaning\", \"filename\": \"uncleaned.csv\"\x7d"))
    [] "\x7b\"task\": \"data_cleaning\", \"filename\": \"uncleaned.csv\"\x7d" rfl rfl hne
  match h with
  | ⟨task, hTask, hCalls, _⟩ => ⟨rfl, hne, task, hTask, hCalls⟩

/-- C10 fails on the code.  For the reply content `null`, `JSON.parse` gives
`null`, `getGroqChatCompletion` returns it, and reading `chatCompletion.task`
in the callback throws a `TypeError`.  And for the reply
`{"task": "sentiment_analysis"}` in a world where the image is absent and its
build fails, the build error leaves `executeTask` and the callback. -/
theorem mainCallback_raises :
    (JSON.parse "null" = .ok .null ∧
      (mainCallback (exampleWorld false (.ok "") (replyWith (.text "null")))
        "Analyze this text" (freshState [])).1 =
        .error (typeError "Cannot read properties of null (reading task)")) ∧
    (mainCallback
        (exampleWorld true (.ok "") (replyWith (.text "\x7b\"task\": \"sentiment_analysis\"\x7d")))
        "Analyze this text" (freshState [])).1 =
      .error (commandFailed (buildCommand sentimentImage "./sentimental_analysis")) :=
  ⟨⟨rfl, rfl⟩, rfl⟩

end Orchestrator
